import Mathlib

/-!
Verification of `repository-service-tuf-cli` against its natural-language
specification.

The Python sources are shallowly embedded: Python `str` values that the
claims inspect character by character are modelled as `List Char` (named
`PyStr`), Python `bytes` as `List Nat`, Python dicts that preserve insertion
order as association lists, and fallible code as `Except`/`Option`.
External collaborators (the `oras` registry client, `requests`, the
`securesystemslib` key loader, the TUF metadata initializer, the REST API)
are modelled as explicit environment/oracle parameters, exactly at the
boundary where the source calls them.
-/

/-- Python `str` modelled as its list of characters. -/
abbrev PyStr := List Char

deriving instance DecidableEq for Except

/-- Python `s.split(sep)` for a one-character separator: always returns a
non-empty list of (possibly empty) pieces; `"".split(sep) == [""]`. -/
def pySplit (sep : Char) : PyStr → List PyStr
  | [] => [[]]
  | c :: rest =>
    match pySplit sep rest with
    | [] => [[]]
    | h :: t => if c = sep then [] :: h :: t else (c :: h) :: t

/-- Python `s.rsplit(sep, 1)`: split at the last occurrence of `sep`;
`none` when `sep` does not occur (Python would return the one-element list,
so two-target unpacking would raise `ValueError`). -/
def pyRsplit1 (sep : Char) : PyStr → Option (PyStr × PyStr)
  | [] => none
  | c :: rest =>
    match pyRsplit1 sep rest with
    | some (a, b) => some (c :: a, b)
    | none => if c = sep then some ([], rest) else none

/-- Python `s.split(sep, 1)`: split at the first occurrence of `sep`. -/
def pySplit1 (sep : Char) : PyStr → Option (PyStr × PyStr)
  | [] => none
  | c :: rest =>
    if c = sep then some ([], rest)
    else
      match pySplit1 sep rest with
      | some (a, b) => some (c :: a, b)
      | none => none

/-- Python `sep.join(pieces)` for a one-character separator. -/
def pyJoin (sep : Char) : List PyStr → PyStr
  | [] => []
  | [p] => p
  | p :: q :: rest => p ++ sep :: pyJoin sep (q :: rest)

/-- Python `s.rstrip(c)` for a single strip character. -/
def pyRstrip (c : Char) (s : PyStr) : PyStr :=
  (s.reverse.dropWhile (· = c)).reverse

theorem pySplit_ne_nil (sep : Char) (s : PyStr) : pySplit sep s ≠ [] := by
  cases s with
  | nil => simp [pySplit]
  | cons c rest =>
    simp only [pySplit]
    cases pySplit sep rest with
    | nil => simp
    | cons h t =>
      by_cases hc : c = sep <;> simp [hc]

/-- Every character of a `pySplit` piece is a character of the source. -/
theorem mem_of_mem_pySplit (sep : Char) :
    ∀ (s : PyStr) (p : PyStr), p ∈ pySplit sep s → ∀ c ∈ p, c ∈ s := by
  intro s
  induction s with
  | nil =>
    intro p hp c hc
    simp [pySplit] at hp
    subst hp
    simp at hc
  | cons x rest ih =>
    intro p hp c hc
    simp only [pySplit] at hp
    cases hps : pySplit sep rest with
    | nil => exact absurd hps (pySplit_ne_nil sep rest)
    | cons h t =>
      rw [hps] at hp
      by_cases hx : x = sep
      · simp [hx] at hp
        rcases hp with hp | hp | hp
        · subst hp; simp at hc
        · have := ih h (by rw [hps]; exact List.mem_cons_self _ _) c (hp ▸ hc)
          exact List.mem_cons_of_mem _ this
        · have := ih p (by rw [hps]; exact List.mem_cons_of_mem _ hp) c hc
          exact List.mem_cons_of_mem _ this
      · simp [hx] at hp
        rcases hp with hp | hp
        · subst hp
          rcases List.mem_cons.mp hc with hc | hc
          · exact hc ▸ List.mem_cons_self _ _
          · have := ih h (by rw [hps]; exact List.mem_cons_self _ _) c hc
            exact List.mem_cons_of_mem _ this
        · have := ih p (by rw [hps]; exact List.mem_cons_of_mem _ hp) c hc
          exact List.mem_cons_of_mem _ this

/-- Both halves of `pyRsplit1` are made of characters of the source. -/
theorem mem_of_mem_pyRsplit1 (sep : Char) :
    ∀ (s a b : PyStr), pyRsplit1 sep s = some (a, b) →
      (∀ c ∈ a, c ∈ s) ∧ (∀ c ∈ b, c ∈ s) := by
  intro s
  induction s with
  | nil => intro a b h; simp [pyRsplit1] at h
  | cons x rest ih =>
    intro a b h
    simp only [pyRsplit1] at h
    cases hr : pyRsplit1 sep rest with
    | some ab =>
      rw [hr] at h
      obtain ⟨a', b'⟩ := ab
      simp at h
      obtain ⟨ha, hb⟩ := h
      have := ih a' b' hr
      constructor
      · intro c hc
        rw [← ha] at hc
        rcases List.mem_cons.mp hc with hc | hc
        · exact hc ▸ List.mem_cons_self _ _
        · exact List.mem_cons_of_mem _ (this.1 c hc)
      · intro c hc
        exact List.mem_cons_of_mem _ (this.2 c (hb ▸ hc))
    | none =>
      rw [hr] at h
      by_cases hx : x = sep
      · simp [hx] at h
        obtain ⟨ha, hb⟩ := h
        subst ha
        constructor
        · intro c hc; simp at hc
        · intro c hc
          apply List.mem_cons_of_mem
          rw [hb]
          exact hc
      · simp [hx] at h

/-- Every character of a join is the separator or a character of a piece. -/
theorem mem_of_mem_pyJoin (sep : Char) :
    ∀ (l : List PyStr) (c : Char), c ∈ pyJoin sep l → c = sep ∨ ∃ p ∈ l, c ∈ p := by
  intro l
  induction l with
  | nil => intro c hc; simp [pyJoin] at hc
  | cons p rest ih =>
    intro c hc
    cases rest with
    | nil =>
      simp only [pyJoin] at hc
      exact Or.inr ⟨p, List.mem_cons_self _ _, hc⟩
    | cons q qs =>
      simp only [pyJoin] at hc
      rcases List.mem_append.mp hc with hc | hc
      · exact Or.inr ⟨p, List.mem_cons_self _ _, hc⟩
      · rcases List.mem_cons.mp hc with hc | hc
        · exact Or.inl hc
        · rcases ih c hc with h | ⟨r, hr, hcr⟩
          · exact Or.inl h
          · exact Or.inr ⟨r, List.mem_cons_of_mem _ hr, hcr⟩

/-!
## `helpers/oras_registry.py`

`_parse_container_url`, `_add_to_rstuf`, `_calculate_size_and_hash`,
`_get_uri_for_digest`, `_sanitize_dockerhub_path` and `add_container_oci`.
The `oras` client calls (`get_raw_data`, `get_manifest`), JSON serialization
(`json.dumps(...).encode("utf-8")`) and `hashlib.sha256(...).hexdigest()`
are external and appear as fields of `OrasEnv`.
-/

namespace Oras

/-- The Docker Hub default server string of `_parse_container_url`. -/
def dockerHub : PyStr := "registry-1.docker.io".data

/-- Assembling the normalized URL: `f"{server}/{path}/{image}:{tag}"` when
`path` is non-empty (Python truthy), else `f"{server}/{image}:{tag}"`. -/
def mkNormalized (server path image tag : PyStr) : PyStr :=
  if path ≠ [] then server ++ '/' :: path ++ '/' :: image ++ ':' :: tag
  else server ++ '/' :: image ++ ':' :: tag

/-- `_parse_container_url` from `helpers/oras_registry.py`. Returns `none`
exactly where the Python raises `IndexError` (`image = parts[0]` on an empty
list: the whole image part was consumed as the server). -/
def _parse_container_url (url : PyStr) : Option PyStr :=
  let tagSplit :=
    match pyRsplit1 ':' url with
    | some (a, b) => (a, b)
    | none => (url, "latest".data)
  let image_part := tagSplit.1
  let tag := tagSplit.2
  let parts := pySplit '/' image_part
  let first := parts.headD []
  let srv :=
    if '.' ∈ first ∨ "registry".data.isPrefixOf first then (first, parts.tail)
    else (dockerHub, parts)
  let server := srv.1
  match srv.2 with
  | [] => none
  | [image] =>
    let path := if server = dockerHub then "library".data else []
    some (mkNormalized server path image tag)
  | p :: q :: rest =>
    let path := pyJoin '/' ((p :: q :: rest).dropLast)
    let image := (q :: rest).getLastD p
    some (mkNormalized server path image tag)

/-- `_sanitize_dockerhub_path`: the body is commented out, it returns the
path unchanged. -/
def _sanitize_dockerhub_path (image_ref path : PyStr) : PyStr := path

/-- One artifact entry of the `add_container_oci` payload. -/
structure ArtifactO where
  length : Nat
  hashes : List (PyStr × PyStr)
  path : PyStr
deriving DecidableEq, Repr

/-- `_add_to_rstuf`: appends one artifact whose hashes dict maps
`digest.split(":")[0]` to `digest.split(":")[1]`. `getD _ []` stands for the
Python indexing; every digest reaching this function is `"sha256:..."`, so
both pieces exist. -/
def _add_to_rstuf (path : PyStr) (size : Nat) (digest : PyStr)
    (payload : List ArtifactO) : List ArtifactO :=
  payload ++ [{ length := size,
                hashes := [((pySplit ':' digest).getD 0 [],
                            (pySplit ':' digest).getD 1 [])],
                path := path }]

/-- `_calculate_size_and_hash`, with `hashlib.sha256(...).hexdigest()`
abstract (`sha256hex`). -/
def _calculate_size_and_hash (sha256hex : List Nat → PyStr) (data : List Nat) :
    Nat × PyStr :=
  (data.length, "sha256:".data ++ sha256hex data)

/-- `_get_uri_for_digest`: `re.split(r"[@:]", uri, maxsplit=1)[0]` is the
prefix of `uri` before the first `'@'` or `':'`. -/
def _get_uri_for_digest (uri digest : PyStr) : PyStr :=
  uri.takeWhile (fun c => c ≠ '@' ∧ c ≠ ':') ++ '@' :: digest

/-- One entry of an OCI index's `manifests` array (only its `digest` is
read by the code). -/
structure ManifestRef where
  digest : PyStr
deriving DecidableEq, Repr

/-- The JSON document `get_raw_data` returns: its `mediaType` and its
`manifests` array (`raw_data.get("manifests", [])`, absent = `[]`). -/
structure OciDoc where
  mediaType : PyStr
  manifests : List ManifestRef
deriving DecidableEq, Repr

/-- The external collaborators of `add_container_oci`:
`get_raw_data` fetches and parses the index document, `dumpsRaw` is
`json.dumps(raw_data).encode("utf-8")`, `getManifestDump` is
`json.dumps(client.get_manifest(uri)).encode("utf-8")`, `sha256hex` is
`hashlib.sha256(data).hexdigest()`. -/
structure OrasEnv where
  get_raw_data : PyStr → Except PyStr OciDoc
  dumpsRaw : OciDoc → List Nat
  getManifestDump : PyStr → Except PyStr (List Nat)
  sha256hex : List Nat → PyStr

/-- How `add_container_oci` ends abnormally: `sys.exit(1)`, or a Python
exception that the function does not catch. -/
inductive OrasErr
  | exitOne
  | uncaught
deriving DecidableEq, Repr

/-- `repo.split("/", 1)[1] if len(repo.split("/")) > 1 else repo`. -/
def rstufPathBase (repo : PyStr) : PyStr :=
  if (pySplit '/' repo).length > 1 then
    match pySplit1 '/' repo with
    | some (_, rest) => rest
    | none => repo
  else repo

/-- The `for manifest in raw_data.get("manifests", [])` loop of
`add_container_oci`: fetch each manifest named by the index, hash it, and
append it to the payload. A `get_manifest` failure is not caught. -/
def processManifests (env : OrasEnv) (image_ref base : PyStr) :
    List ManifestRef → List ArtifactO → Except OrasErr (List ArtifactO)
  | [], payload => .ok payload
  | m :: rest, payload =>
    let digest := m.digest
    let manifest_path := _sanitize_dockerhub_path image_ref (base ++ '@' :: digest)
    match env.getManifestDump (_get_uri_for_digest image_ref digest) with
    | .error _ => .error .uncaught
    | .ok mb =>
      let sd := _calculate_size_and_hash env.sha256hex mb
      processManifests env image_ref base rest (_add_to_rstuf manifest_path sd.1 sd.2 payload)

/-- The OCI index media type string. -/
def indexMediaType : PyStr := "application/vnd.oci.image.index.v1+json".data

/-- `add_container_oci` from `helpers/oras_registry.py`. -/
def add_container_oci (env : OrasEnv) (image_ref : PyStr) :
    Except OrasErr (List ArtifactO) :=
  if '@' ∈ image_ref then .error .exitOne
  else
    match _parse_container_url image_ref with
    | none => .error .uncaught
    | some ref =>
      let rt :=
        if '@' ∈ ref then pySplit1 '@' ref else pyRsplit1 ':' ref
      match rt with
      | none => .error .uncaught
      | some (repo, tag_or_digest) =>
        let base := rstufPathBase repo
        match env.get_raw_data ref with
        | .error _ => .error .exitOne
        | .ok raw =>
          let manifestBytes := env.dumpsRaw raw
          let sd := _calculate_size_and_hash env.sha256hex manifestBytes
          if raw.mediaType = indexMediaType then
            let payload :=
              _add_to_rstuf (_sanitize_dockerhub_path ref (base ++ ':' :: tag_or_digest))
                sd.1 sd.2 []
            processManifests env ref base raw.manifests payload
          else
            let payload :=
              _add_to_rstuf (_sanitize_dockerhub_path ref (base ++ ':' :: tag_or_digest))
                sd.1 sd.2 []
            .ok (_add_to_rstuf (base ++ '@' :: sd.2) sd.1 sd.2 payload)

end Oras


namespace Oras

/-- The last remaining segment is the `getLastD` the code computes. -/
theorem getLast?_cons_eq_getLastD (p : PyStr) (l : List PyStr) :
    (p :: l).getLast? = some (l.getLastD p) := by
  rw [List.getLast?_cons]
  congr 1
  exact (List.getLastD_eq_getLast? p l).symm

/-- `l.getLastD p` is `p` or an element of `l`. -/
theorem getLastD_mem_cons (l : List PyStr) (p : PyStr) : l.getLastD p ∈ p :: l := by
  induction l generalizing p with
  | nil => simp [List.getLastD]
  | cons q rest ih =>
    rw [List.getLastD_cons]
    rcases List.mem_cons.mp (ih q) with h | h
    · rw [h]
      exact List.mem_cons_of_mem _ (List.mem_cons_self _ _)
    · exact List.mem_cons_of_mem _ (List.mem_cons_of_mem _ h)

/-!
The next definitions state claim C2's formula in the claim's own words:
the tag is the text after the last `':'` (else `"latest"`), the server is
the first `'/'`-separated segment of the remainder when that segment has a
`'.'` or starts with `"registry"` (else the Docker Hub default), and for a
single remaining segment the path is `"library"` on Docker Hub and empty
elsewhere. They are compared against `_parse_container_url` below.
-/

/-- Claim C2: the text after the last `':'` of the input, else `"latest"`. -/
def specTag (url : PyStr) : PyStr :=
  match pyRsplit1 ':' url with
  | some (_, t) => t
  | none => "latest".data

/-- Claim C2: the input without its tag part. -/
def specRemainder (url : PyStr) : PyStr :=
  match pyRsplit1 ':' url with
  | some (r, _) => r
  | none => url

/-- Claim C2: the first `'/'`-separated segment of the remainder. -/
def specFirstSeg (url : PyStr) : PyStr :=
  (pySplit '/' (specRemainder url)).headD []

/-- Claim C2: the server. -/
def specServer (url : PyStr) : PyStr :=
  if '.' ∈ specFirstSeg url ∨ "registry".data.isPrefixOf (specFirstSeg url)
  then specFirstSeg url else dockerHub

/-- Claim C2: the segments remaining once a server segment is removed. -/
def specRest (url : PyStr) : List PyStr :=
  if '.' ∈ specFirstSeg url ∨ "registry".data.isPrefixOf (specFirstSeg url)
  then (pySplit '/' (specRemainder url)).tail
  else pySplit '/' (specRemainder url)

/-- Claim C2: the path, as a function of the remaining segments and the
server: `"library"`/empty for a single remaining segment, the joined
leading segments otherwise. -/
def pathOfRest (rest : List PyStr) (server : PyStr) : PyStr :=
  match rest with
  | [] => []
  | [_] => if server = dockerHub then "library".data else []
  | l => pyJoin '/' l.dropLast

/-- Claim C2: the path. -/
def specPath (url : PyStr) : PyStr :=
  pathOfRest (specRest url) (specServer url)

/-- Claim C2: the image is the last remaining segment. -/
def specImage (url : PyStr) : Option PyStr :=
  (specRest url).getLast?

/-- Claim C2's normalized URL, assembled from the components above. -/
def parse_container_url_spec (url : PyStr) : Option PyStr :=
  (specImage url).map (fun image =>
    mkNormalized (specServer url) (specPath url) image (specTag url))

end Oras

/-- C2 (counterexample). The claim promises a normalized result for every
container reference string, but on `"ghcr.io"` the whole image part is
classified as a server, `parts` becomes empty, and `image = parts[0]`
raises `IndexError`: no result is returned at all. -/
theorem parse_container_url_total_counterexample :
    Oras._parse_container_url "ghcr.io".data = none := by decide

/-- Helper: `_parse_container_url` computes exactly the claim-C2 formula
`parse_container_url_spec`, with `none` on both sides exactly where the
Python raises `IndexError`. -/
theorem parse_container_url_eq_spec (url : PyStr) :
    Oras._parse_container_url url = Oras.parse_container_url_spec url := by
  unfold Oras._parse_container_url Oras.parse_container_url_spec
  unfold Oras.specImage Oras.specPath Oras.pathOfRest Oras.specServer Oras.specRest
  unfold Oras.specFirstSeg Oras.specRemainder Oras.specTag
  cases hsplit : pyRsplit1 ':' url with
  | some ab =>
    obtain ⟨a, b⟩ := ab
    simp only
    by_cases hsrv : '.' ∈ (pySplit '/' a).headD [] ∨ "registry".data.isPrefixOf ((pySplit '/' a).headD [])
    · simp only [if_pos hsrv]
      cases htail : (pySplit '/' a).tail with
      | nil => simp
      | cons p rest =>
        cases rest with
        | nil => simp [Oras.getLast?_cons_eq_getLastD, List.getLastD]
        | cons q rest' => simp [Oras.getLast?_cons_eq_getLastD]
    · simp only [if_neg hsrv]
      cases hparts : pySplit '/' a with
      | nil => simp
      | cons p rest =>
        cases rest with
        | nil => simp [Oras.getLast?_cons_eq_getLastD, List.getLastD]
        | cons q rest' => simp [Oras.getLast?_cons_eq_getLastD]
  | none =>
    simp only
    by_cases hsrv : '.' ∈ (pySplit '/' url).headD [] ∨ "registry".data.isPrefixOf ((pySplit '/' url).headD [])
    · simp only [if_pos hsrv]
      cases htail : (pySplit '/' url).tail with
      | nil => simp
      | cons p rest =>
        cases rest with
        | nil => simp [Oras.getLast?_cons_eq_getLastD, List.getLastD]
        | cons q rest' => simp [Oras.getLast?_cons_eq_getLastD]
    · simp only [if_neg hsrv]
      cases hparts : pySplit '/' url with
      | nil => simp
      | cons p rest =>
        cases rest with
        | nil => simp [Oras.getLast?_cons_eq_getLastD, List.getLastD]
        | cons q rest' => simp [Oras.getLast?_cons_eq_getLastD]

/-- C2 (amended). `_parse_container_url` agrees everywhere with the claim's
formula: whenever at least one segment remains after server extraction the
result is exactly the claim's `server/path/image:tag` string, and on the
remaining inputs (the whole image part consumed as the server) the function
raises `IndexError` instead of returning a result. -/
theorem parse_container_url_matches_spec (url : PyStr) :
    Oras._parse_container_url url = Oras.parse_container_url_spec url :=
  parse_container_url_eq_spec url

namespace Oras

/-- A character of the normalized URL comes from a component or is one of
the two inserted separators. -/
theorem mem_mkNormalized (server path image tag : PyStr) (c : Char)
    (hc : c ∈ mkNormalized server path image tag) :
    c ∈ server ∨ c ∈ path ∨ c ∈ image ∨ c ∈ tag ∨ c = '/' ∨ c = ':' := by
  unfold mkNormalized at hc
  split at hc <;> simp only [List.mem_append, List.mem_cons] at hc <;> tauto

/-- Characters of the tag-stripped remainder come from the input. -/
theorem mem_specRemainder (url : PyStr) (c : Char) (hc : c ∈ specRemainder url) :
    c ∈ url := by
  unfold specRemainder at hc
  cases h : pyRsplit1 ':' url with
  | some ab =>
    rw [h] at hc
    exact (mem_of_mem_pyRsplit1 ':' url ab.1 ab.2 (by rw [h])).1 c hc
  | none =>
    rw [h] at hc
    exact hc

/-- Characters of the tag come from the input or from `"latest"`. -/
theorem mem_specTag (url : PyStr) (c : Char) (hc : c ∈ specTag url) :
    c ∈ url ∨ c ∈ "latest".data := by
  unfold specTag at hc
  cases h : pyRsplit1 ':' url with
  | some ab =>
    rw [h] at hc
    exact Or.inl ((mem_of_mem_pyRsplit1 ':' url ab.1 ab.2 (by rw [h])).2 c hc)
  | none =>
    rw [h] at hc
    exact Or.inr hc

/-- Characters of the first segment come from the input. -/
theorem mem_specFirstSeg (url : PyStr) (c : Char) (hc : c ∈ specFirstSeg url) :
    c ∈ url := by
  unfold specFirstSeg at hc
  cases h : pySplit '/' (specRemainder url) with
  | nil => exact absurd h (pySplit_ne_nil _ _)
  | cons p t =>
    rw [h] at hc
    apply mem_specRemainder url
    exact mem_of_mem_pySplit '/' (specRemainder url) p (by rw [h]; exact List.mem_cons_self _ _) c hc

/-- Characters of a remaining segment come from the input. -/
theorem mem_specRest (url : PyStr) (p : PyStr) (hp : p ∈ specRest url)
    (c : Char) (hc : c ∈ p) : c ∈ url := by
  unfold specRest at hp
  have hmem : p ∈ pySplit '/' (specRemainder url) := by
    split at hp
    · exact List.mem_of_mem_tail hp
    · exact hp
  exact mem_specRemainder url c (mem_of_mem_pySplit '/' (specRemainder url) p hmem c hc)

/-- Characters of the server come from the input or from the Docker Hub
default. -/
theorem mem_specServer (url : PyStr) (c : Char) (hc : c ∈ specServer url) :
    c ∈ url ∨ c ∈ dockerHub := by
  unfold specServer at hc
  split at hc
  · exact Or.inl (mem_specFirstSeg url c hc)
  · exact Or.inr hc

/-- Characters of the path come from a remaining segment, from `"library"`,
or are the `'/'` the join inserts. -/
theorem mem_pathOfRest (rest : List PyStr) (server : PyStr) (c : Char)
    (hc : c ∈ pathOfRest rest server) :
    c ∈ "library".data ∨ c = '/' ∨ ∃ p ∈ rest, c ∈ p := by
  match rest with
  | [] => simp [pathOfRest] at hc
  | [x] =>
    simp only [pathOfRest] at hc
    split at hc
    · exact Or.inl hc
    · simp at hc
  | x :: y :: t =>
    simp only [pathOfRest] at hc
    rcases mem_of_mem_pyJoin '/' _ c hc with h | ⟨p, hp, hcp⟩
    · exact Or.inr (Or.inl h)
    · exact Or.inr (Or.inr ⟨p, List.dropLast_subset _ hp, hcp⟩)

/-- Characters of the path come from the input, from `"library"`, or are the
`'/'` the join inserts. -/
theorem mem_specPath (url : PyStr) (c : Char) (hc : c ∈ specPath url) :
    c ∈ url ∨ c ∈ "library".data ∨ c = '/' := by
  unfold specPath at hc
  rcases mem_pathOfRest _ _ c hc with h | h | ⟨p, hp, hcp⟩
  · exact Or.inr (Or.inl h)
  · exact Or.inr (Or.inr h)
  · exact Or.inl (mem_specRest url p hp c hcp)

end Oras

/-- C10. First conjunct: for inputs without `'@'` (the only inputs that
reach `_parse_container_url` inside `add_container_oci`), the normalized
reference contains no `'@'` and always contains a `':'`, so the
`image_ref.split("@", 1)` branch of `add_container_oci` is unreachable and
`repo`/`tag` always come from `rsplit(":", 1)`. Second conjunct: an input
that does contain `'@'` makes `add_container_oci` exit with status 1 before
parsing. -/
theorem parse_container_url_no_at_aux (url r : PyStr)
    (hurl : '@' ∉ url) (h : Oras._parse_container_url url = some r) :
    '@' ∉ r ∧ ':' ∈ r := by
  rw [parse_container_url_eq_spec] at h
  unfold Oras.parse_container_url_spec at h
  cases himg : Oras.specImage url with
  | none => rw [himg] at h; simp at h
  | some image =>
    rw [himg] at h
    simp only [Option.map_some'] at h
    have himem : image ∈ Oras.specRest url := by
      unfold Oras.specImage at himg
      obtain ⟨hne, heq⟩ :=
        List.mem_getLast?_eq_getLast (show image ∈ (Oras.specRest url).getLast? from himg)
      rw [heq]
      exact List.getLast_mem hne
    have hr := Option.some.inj h
    subst hr
    constructor
    · intro hc
      rcases Oras.mem_mkNormalized _ _ _ _ '@' hc with hs | hp | hi | ht | hsl | hco
      · rcases Oras.mem_specServer url '@' hs with h1 | h1
        · exact hurl h1
        · revert h1; decide
      · rcases Oras.mem_specPath url '@' hp with h1 | h1 | h1
        · exact hurl h1
        · revert h1; decide
        · exact absurd h1 (by decide)
      · exact hurl (Oras.mem_specRest url image himem '@' hi)
      · rcases Oras.mem_specTag url '@' ht with h1 | h1
        · exact hurl h1
        · revert h1; decide
      · exact absurd hsl (by decide)
      · exact absurd hco (by decide)
    · unfold Oras.mkNormalized
      split <;> simp

/-- C10. First conjunct: for inputs without `'@'` (the only ones reaching
`_parse_container_url` inside `add_container_oci`), the normalized
reference contains no `'@'` and always contains a `':'`, so the
`image_ref.split("@", 1)` branch of `add_container_oci` is unreachable and
`repo`/`tag` always come from `rsplit(":", 1)`. Second conjunct: an input
that does contain `'@'` makes `add_container_oci` exit with status 1 before
parsing. -/
theorem parse_container_url_no_at_branch_dead :
    (∀ url r, '@' ∉ url → Oras._parse_container_url url = some r →
       '@' ∉ r ∧ ':' ∈ r) ∧
    (∀ env image_ref, '@' ∈ image_ref →
       Oras.add_container_oci env image_ref = .error .exitOne) := by
  constructor
  · exact parse_container_url_no_at_aux
  · intro env image_ref hat
    unfold Oras.add_container_oci
    rw [if_pos hat]

/-- A trivial registry environment for concrete evaluations. -/
def zeroOrasEnv : Oras.OrasEnv where
  get_raw_data := fun _ => .error []
  dumpsRaw := fun _ => []
  getManifestDump := fun _ => .error []
  sha256hex := fun _ => []

/-- C10 witness: evaluated at `"postgres:17"` (whose normalized reference
has a `':'` and no `'@'`) and at `"a@b"` (which exits with status 1). -/
theorem parse_container_url_no_at_branch_dead_witness :
    ('@' ∉ ("registry-1.docker.io/library/postgres:17".data) ∧
       ':' ∈ ("registry-1.docker.io/library/postgres:17".data)) ∧
    Oras.add_container_oci zeroOrasEnv "a@b".data = .error .exitOne :=
  ⟨parse_container_url_no_at_branch_dead.1 "postgres:17".data
      "registry-1.docker.io/library/postgres:17".data (by decide) (by decide),
   parse_container_url_no_at_branch_dead.2 zeroOrasEnv "a@b".data (by decide)⟩

/-- `pySplit` of a separator-free string is that single piece. -/
theorem pySplit_eq_single_of_not_mem (sep : Char) (s : PyStr) (h : sep ∉ s) :
    pySplit sep s = [s] := by
  induction s with
  | nil => rfl
  | cons x xs ih =>
    have hx : ¬ x = sep := fun he => h (he ▸ List.mem_cons_self _ _)
    have hxs : sep ∉ xs := fun hm => h (List.mem_cons_of_mem _ hm)
    simp only [pySplit, ih hxs]
    simp [hx]

/-- Splitting around the first (and only marked) separator occurrence. -/
theorem pySplit_append_sep (sep : Char) (a b : PyStr) (ha : sep ∉ a) :
    pySplit sep (a ++ sep :: b) = a :: pySplit sep b := by
  induction a with
  | nil =>
    simp only [List.nil_append, pySplit]
    cases h : pySplit sep b with
    | nil => exact absurd h (pySplit_ne_nil sep b)
    | cons x t => simp
  | cons x xs ih =>
    have hx : ¬ x = sep := fun he => ha (he ▸ List.mem_cons_self _ _)
    have hxs : sep ∉ xs := fun hm => ha (List.mem_cons_of_mem _ hm)
    simp only [List.cons_append, pySplit, List.append_eq]
    rw [ih hxs]
    simp [hx]

/-- `"sha256:<hex>".split(":")` is `["sha256", hex]` when the hex digest has
no colon (hexdigest output never does). -/
theorem pySplit_sha256_digest (hex : PyStr) (hhex : ':' ∉ hex) :
    pySplit ':' ("sha256:".data ++ hex) = ["sha256".data, hex] := by
  have h1 : "sha256:".data ++ hex = "sha256".data ++ ':' :: hex := rfl
  rw [h1, pySplit_append_sep ':' _ hex (by decide),
      pySplit_eq_single_of_not_mem ':' hex hhex]

/-- `_add_to_rstuf` on a `sha256:`-prefixed digest appends the artifact with
the one-entry hashes dict keyed `"sha256"`. -/
theorem add_to_rstuf_sha256 (path : PyStr) (size : Nat) (hex : PyStr)
    (hhex : ':' ∉ hex) (payload : List Oras.ArtifactO) :
    Oras._add_to_rstuf path size ("sha256:".data ++ hex) payload =
      payload ++ [{ length := size, hashes := [("sha256".data, hex)], path := path }] := by
  unfold Oras._add_to_rstuf
  rw [pySplit_sha256_digest hex hhex]
  rfl

/-- `rsplit(sep, 1)` succeeds on any string containing the separator. -/
theorem pyRsplit1_isSome_of_mem (sep : Char) :
    ∀ s : PyStr, sep ∈ s → ∃ ab, pyRsplit1 sep s = some ab := by
  intro s
  induction s with
  | nil => intro h; simp at h
  | cons x rest ih =>
    intro h
    simp only [pyRsplit1]
    cases hr : pyRsplit1 sep rest with
    | some ab =>
      obtain ⟨a, b⟩ := ab
      exact ⟨(x :: a, b), rfl⟩
    | none =>
      rcases List.mem_cons.mp h with h | h
      · subst h
        exact ⟨([], rest), by simp⟩
      · rcases ih h with ⟨ab, hab⟩
        simp [hab] at hr

/-- What the manifest loop of `add_container_oci` does: it keeps the
incoming payload's entries and appends, in array order, one artifact per
index entry, whose path carries the digest named by the index and whose
length/hash are those of the individually fetched manifest body. -/
theorem processManifests_spec (env : Oras.OrasEnv) (ref base : PyStr)
    (hhex : ∀ b, ':' ∉ env.sha256hex b) :
    ∀ (ms : List Oras.ManifestRef) (payload res : List Oras.ArtifactO),
      Oras.processManifests env ref base ms payload = .ok res →
      res.length = payload.length + ms.length ∧
      (∀ j, j < payload.length → res.get? j = payload.get? j) ∧
      (∀ i (hi : i < ms.length), ∃ mb,
        env.getManifestDump (Oras._get_uri_for_digest ref (ms.get ⟨i, hi⟩).digest) = .ok mb ∧
        res.get? (payload.length + i) =
          some { length := mb.length,
                 hashes := [("sha256".data, env.sha256hex mb)],
                 path := base ++ '@' :: (ms.get ⟨i, hi⟩).digest }) := by
  intro ms
  induction ms with
  | nil =>
    intro payload res h
    simp only [Oras.processManifests] at h
    injection h with h
    subst h
    exact ⟨by simp, fun j hj => rfl, fun i hi => absurd hi (by simp)⟩
  | cons m rest ih =>
    intro payload res h
    simp only [Oras.processManifests] at h
    cases hfetch : env.getManifestDump (Oras._get_uri_for_digest ref m.digest) with
    | error e => rw [hfetch] at h; cases h
    | ok mb =>
      rw [hfetch] at h
      simp only [Oras._calculate_size_and_hash, Oras._sanitize_dockerhub_path] at h
      rw [add_to_rstuf_sha256 _ _ _ (hhex mb)] at h
      obtain ⟨hlen, hpre, hent⟩ := ih _ res h
      refine ⟨?_, ?_, ?_⟩
      · rw [hlen]
        simp [List.length_append]
        omega
      · intro j hj
        rw [hpre j (by simp; omega)]
        exact List.get?_append hj
      · intro i hi
        cases i with
        | zero =>
          refine ⟨mb, hfetch, ?_⟩
          have := hpre payload.length (by simp)
          rw [Nat.add_zero, this, List.get?_append_right (Nat.le_refl _)]
          simp
        | succ i' =>
          have hi' : i' < rest.length := by
            simp at hi
            omega
          obtain ⟨mb', hmb', hget⟩ := hent i' hi'
          refine ⟨mb', hmb', ?_⟩
          have hlen1 : (payload ++ [({ length := mb.length, hashes := [("sha256".data, env.sha256hex mb)], path := base ++ '@' :: m.digest } : Oras.ArtifactO)]).length = payload.length + 1 := by simp
          have harith : payload.length + (i' + 1) = payload.length + 1 + i' := by omega
          rw [harith, ← hlen1, hget]
          rfl

/-- C1. For every OCI document fetched by `add_container_oci` whose
top-level `mediaType` is the OCI image-index type, the returned payload
holds exactly `1 + N` artifacts, `N` the length of the document's
`manifests` array: first the index itself at `<base>:<tag>` with the byte
length and sha256 of the serialized index, then, in array order, one entry
per index manifest at `<base>@<digest from the index entry>` with the byte
length and sha256 of that manifest's individually fetched body. -/
theorem add_container_oci_index_payload
    (env : Oras.OrasEnv) (image_ref ref : PyStr) (raw : Oras.OciDoc)
    (payload : List Oras.ArtifactO)
    (hhex : ∀ b, ':' ∉ env.sha256hex b)
    (hparse : Oras._parse_container_url image_ref = some ref)
    (hraw : env.get_raw_data ref = .ok raw)
    (hidx : raw.mediaType = Oras.indexMediaType)
    (hok : Oras.add_container_oci env image_ref = .ok payload) :
    ∃ repo tag,
      pyRsplit1 ':' ref = some (repo, tag) ∧
      payload.length = 1 + raw.manifests.length ∧
      payload.get? 0 = some { length := (env.dumpsRaw raw).length,
                              hashes := [("sha256".data, env.sha256hex (env.dumpsRaw raw))],
                              path := Oras.rstufPathBase repo ++ ':' :: tag } ∧
      (∀ i (hi : i < raw.manifests.length), ∃ mb,
        env.getManifestDump (Oras._get_uri_for_digest ref (raw.manifests.get ⟨i, hi⟩).digest) = .ok mb ∧
        payload.get? (1 + i) =
          some { length := mb.length,
                 hashes := [("sha256".data, env.sha256hex mb)],
                 path := Oras.rstufPathBase repo ++ '@' :: (raw.manifests.get ⟨i, hi⟩).digest }) := by
  have hat : ¬ '@' ∈ image_ref := by
    intro hat
    unfold Oras.add_container_oci at hok
    rw [if_pos hat] at hok
    cases hok
  obtain ⟨hnoat, hcolon⟩ := parse_container_url_no_at_aux image_ref ref hat hparse
  obtain ⟨⟨repo, tag⟩, hsplit⟩ := pyRsplit1_isSome_of_mem ':' ref hcolon
  refine ⟨repo, tag, hsplit, ?_⟩
  unfold Oras.add_container_oci at hok
  rw [if_neg hat] at hok
  simp only [hparse, if_neg hnoat, hsplit, hraw, Oras._calculate_size_and_hash,
    Oras._sanitize_dockerhub_path] at hok
  rw [if_pos hidx] at hok
  rw [add_to_rstuf_sha256 _ _ _ (hhex _)] at hok
  simp only [List.nil_append] at hok
  obtain ⟨hlen, hpre, hent⟩ := processManifests_spec env ref (Oras.rstufPathBase repo) hhex
    raw.manifests _ payload hok
  refine ⟨?_, ?_, ?_⟩
  · rw [hlen]
    simp
  · have := hpre 0 (by simp)
    rw [this]
    rfl
  · intro i hi
    obtain ⟨mb, hmb, hget⟩ := hent i hi
    refine ⟨mb, hmb, ?_⟩
    simpa using hget

/-- A concrete registry for the C1 witness: one index with one manifest. -/
def c1Env : Oras.OrasEnv where
  get_raw_data := fun _ =>
    .ok { mediaType := Oras.indexMediaType, manifests := [{ digest := "sha256:aa".data }] }
  dumpsRaw := fun _ => [1, 2, 3]
  getManifestDump := fun _ => .ok [4, 5]
  sha256hex := fun b => if b.length = 3 then "d0".data else "d1".data

/-- The index document `c1Env` serves. -/
def c1Raw : Oras.OciDoc :=
  { mediaType := Oras.indexMediaType, manifests := [{ digest := "sha256:aa".data }] }

/-- The payload `add_container_oci` computes against `c1Env`. -/
def c1Payload : List Oras.ArtifactO :=
  match Oras.add_container_oci c1Env "ghcr.io/a/b:1".data with
  | .ok p => p
  | .error _ => []

/-- C1 witness: the theorem applied to `c1Env` at `"ghcr.io/a/b:1"`. -/
theorem add_container_oci_index_payload_witness :
    ∃ repo tag,
      pyRsplit1 ':' "ghcr.io/a/b:1".data = some (repo, tag) ∧
      c1Payload.length = 1 + c1Raw.manifests.length ∧
      c1Payload.get? 0 = some { length := (c1Env.dumpsRaw c1Raw).length,
                                hashes := [("sha256".data, c1Env.sha256hex (c1Env.dumpsRaw c1Raw))],
                                path := Oras.rstufPathBase repo ++ ':' :: tag } ∧
      (∀ i (hi : i < c1Raw.manifests.length), ∃ mb,
        c1Env.getManifestDump
            (Oras._get_uri_for_digest "ghcr.io/a/b:1".data (c1Raw.manifests.get ⟨i, hi⟩).digest)
          = .ok mb ∧
        c1Payload.get? (1 + i) =
          some { length := mb.length,
                 hashes := [("sha256".data, c1Env.sha256hex mb)],
                 path := Oras.rstufPathBase repo ++ '@' :: (c1Raw.manifests.get ⟨i, hi⟩).digest }) :=
  add_container_oci_index_payload c1Env "ghcr.io/a/b:1".data "ghcr.io/a/b:1".data c1Raw c1Payload
    (by intro b; simp only [c1Env]; split <;> decide)
    (by decide) (by rfl) (by rfl) (by rfl)

/-!
## `helpers/tuf_fetcher.py`

`RSTUFFetcher._fetch`. `requests.get` (whose failures are
`requests.RequestException`s), the streamed response, and the oras-side
`get_raw_data` (which may raise anything) are environment parameters.
`urllib.parse.urlparse`'s scheme extraction is embedded as `pyUrlScheme`.
-/

namespace Fetcher

/-- The characters CPython's `urlsplit` allows in a scheme. -/
def scheme_char (c : Char) : Bool :=
  c.isAlpha || c.isDigit || c = '+' || c = '-' || c = '.'

/-- The `scheme` of `urllib.parse.urlparse(url)`: the lowercased text before
the first `':'` when that text is non-empty, starts with a letter and
consists of scheme characters; empty otherwise. -/
def pyUrlScheme (url : PyStr) : PyStr :=
  match pySplit1 ':' url with
  | some (a, _) =>
    if a ≠ [] ∧ (url.headD ' ').isAlpha ∧ a.all scheme_char then a.map Char.toLower
    else []
  | none => []

/-- A streamed `requests` response: status code, the content chunks
`iter_content(8192)` yields, and whether iteration ends in a
`requests.RequestException`. -/
structure HttpResp where
  status : Nat
  chunks : List (List Nat)
  streamErr : Bool

/-- The exceptions that can travel through `_fetch`: the two
`tuf.api.exceptions` types it is allowed to raise, plus an arbitrary other
exception an external call may raise. -/
inductive FetchExc
  | downloadHTTP (code : Nat)
  | downloadError
  | otherException
deriving DecidableEq, Repr

/-- The external collaborators of `_fetch`: `requests.get` (error =
`requests.RequestException`) and the oras fetch
`json.dumps(client.get_raw_data(url)).encode("utf-8")`, which may raise an
exception of any type. -/
structure FetchEnv where
  httpGet : PyStr → Except Unit HttpResp
  get_raw_data : PyStr → Except FetchExc (List Nat)

/-- `RSTUFFetcher._fetch`: the chunks yielded and the exception escaping,
if any. The `except` clauses are modelled exactly: the HTTP branch catches
only `requests.RequestException` (so the `DownloadHTTPError` raised on a
non-200 escapes), the OCI branch re-raises `DownloadHTTPError` and wraps
every other `Exception` in `DownloadError`. -/
def _fetch (env : FetchEnv) (url : PyStr) : List (List Nat) × Option FetchExc :=
  if pyUrlScheme url = "http".data ∨ pyUrlScheme url = "https".data then
    match env.httpGet url with
    | .error _ => ([], some .downloadError)
    | .ok resp =>
      if resp.status ≠ 200 then ([], some (.downloadHTTP resp.status))
      else
        let yielded := resp.chunks.filter (fun c => !c.isEmpty)
        if resp.streamErr then (yielded, some .downloadError)
        else (yielded, none)
  else
    if ¬ (':' ∈ url) ∧ ¬ ('@' ∈ url) then ([], some .downloadError)
    else
      match env.get_raw_data url with
      | .ok bytes => ([bytes], none)
      | .error (.downloadHTTP c) => ([], some (.downloadHTTP c))
      | .error _ => ([], some .downloadError)

end Fetcher

/-- C4. `_fetch` either yields content or lets exactly one of
`DownloadHTTPError`/`DownloadError` escape: (1) any escaping exception is
one of those two; (2) an HTTP(S) response with a status other than 200
raises `DownloadHTTPError` with that status; (3) a non-HTTP(S) URI with
neither `':'` nor `'@'` raises `DownloadError`; (4) on success the yielded
bytes are exactly the fetched content, unchanged apart from dropping empty
keep-alive chunks: no verification of the content happens. -/
theorem fetcher_fetch_errors (env : Fetcher.FetchEnv) (url : PyStr) :
    (∀ e, (Fetcher._fetch env url).2 = some e →
        e = .downloadError ∨ ∃ code, e = .downloadHTTP code) ∧
    ((Fetcher.pyUrlScheme url = "http".data ∨ Fetcher.pyUrlScheme url = "https".data) →
      ∀ resp, env.httpGet url = .ok resp → resp.status ≠ 200 →
        Fetcher._fetch env url = ([], some (.downloadHTTP resp.status))) ∧
    (¬ (Fetcher.pyUrlScheme url = "http".data ∨ Fetcher.pyUrlScheme url = "https".data) →
      ':' ∉ url → '@' ∉ url →
        Fetcher._fetch env url = ([], some .downloadError)) ∧
    ((Fetcher._fetch env url).2 = none →
      (∃ resp, env.httpGet url = .ok resp ∧ resp.status = 200 ∧
         (Fetcher._fetch env url).1 = resp.chunks.filter (fun c => !c.isEmpty)) ∨
      (∃ b, env.get_raw_data url = .ok b ∧ (Fetcher._fetch env url).1 = [b])) := by
  by_cases hscheme : Fetcher.pyUrlScheme url = "http".data ∨ Fetcher.pyUrlScheme url = "https".data
  · cases hget : env.httpGet url with
    | error e =>
      refine ⟨?_, ?_, ?_, ?_⟩
      · intro ex hex
        simp [Fetcher._fetch, hscheme, hget] at hex
        exact Or.inl hex.symm
      · intro _ resp hresp
        exact absurd hresp (by simp)
      · intro h
        exact absurd hscheme h
      · intro hnone
        simp [Fetcher._fetch, hscheme, hget] at hnone
    | ok resp =>
      by_cases hst : resp.status = 200
      · by_cases hse : resp.streamErr
        · refine ⟨?_, ?_, ?_, ?_⟩
          · intro ex hex
            simp [Fetcher._fetch, hscheme, hget, hst, hse] at hex
            exact Or.inl hex.symm
          · intro _ resp' hresp' hne
            injection hresp' with h
            subst h
            exact absurd hst hne
          · intro h
            exact absurd hscheme h
          · intro hnone
            simp [Fetcher._fetch, hscheme, hget, hst, hse] at hnone
        · refine ⟨?_, ?_, ?_, ?_⟩
          · intro ex hex
            simp [Fetcher._fetch, hscheme, hget, hst, hse] at hex
          · intro _ resp' hresp' hne
            injection hresp' with h
            subst h
            exact absurd hst hne
          · intro h
            exact absurd hscheme h
          · intro _
            refine Or.inl ⟨resp, rfl, hst, ?_⟩
            simp [Fetcher._fetch, hscheme, hget, hst, hse]
      · refine ⟨?_, ?_, ?_, ?_⟩
        · intro ex hex
          simp [Fetcher._fetch, hscheme, hget, hst] at hex
          exact Or.inr ⟨resp.status, hex.symm⟩
        · intro _ resp' hresp' hne
          injection hresp' with h
          subst h
          simp [Fetcher._fetch, hscheme, hget, hst]
        · intro h
          exact absurd hscheme h
        · intro hnone
          simp [Fetcher._fetch, hscheme, hget, hst] at hnone
  · by_cases hplain : ¬ (':' ∈ url) ∧ ¬ ('@' ∈ url)
    · refine ⟨?_, ?_, ?_, ?_⟩
      · intro ex hex
        simp [Fetcher._fetch, hscheme, hplain] at hex
        exact Or.inl hex.symm
      · intro h
        exact absurd h hscheme
      · intro _ _ _
        simp [Fetcher._fetch, hscheme, hplain]
      · intro hnone
        simp [Fetcher._fetch, hscheme, hplain] at hnone
    · cases hraw : env.get_raw_data url with
      | ok b =>
        refine ⟨?_, ?_, ?_, ?_⟩
        · intro ex hex
          simp [Fetcher._fetch, hscheme, hplain, hraw] at hex
        · intro h
          exact absurd h hscheme
        · intro _ hc ha
          exact absurd ⟨hc, ha⟩ hplain
        · intro _
          refine Or.inr ⟨b, rfl, ?_⟩
          simp [Fetcher._fetch, hscheme, hplain, hraw]
      | error e =>
        cases e with
        | downloadHTTP code =>
          refine ⟨?_, ?_, ?_, ?_⟩
          · intro ex hex
            simp [Fetcher._fetch, hscheme, hplain, hraw] at hex
            exact Or.inr ⟨code, hex.symm⟩
          · intro h
            exact absurd h hscheme
          · intro _ hc ha
            exact absurd ⟨hc, ha⟩ hplain
          · intro hnone
            simp [Fetcher._fetch, hscheme, hplain, hraw] at hnone
        | downloadError =>
          refine ⟨?_, ?_, ?_, ?_⟩
          · intro ex hex
            simp [Fetcher._fetch, hscheme, hplain, hraw] at hex
            exact Or.inl hex.symm
          · intro h
            exact absurd h hscheme
          · intro _ hc ha
            exact absurd ⟨hc, ha⟩ hplain
          · intro hnone
            simp [Fetcher._fetch, hscheme, hplain, hraw] at hnone
        | otherException =>
          refine ⟨?_, ?_, ?_, ?_⟩
          · intro ex hex
            simp [Fetcher._fetch, hscheme, hplain, hraw] at hex
            exact Or.inl hex.symm
          · intro h
            exact absurd h hscheme
          · intro _ hc ha
            exact absurd ⟨hc, ha⟩ hplain
          · intro hnone
            simp [Fetcher._fetch, hscheme, hplain, hraw] at hnone

/-- A concrete fetch environment for the C4 witness. -/
def c4Env : Fetcher.FetchEnv where
  httpGet := fun _ => .ok { status := 404, chunks := [], streamErr := false }
  get_raw_data := fun _ => .ok [7]

/-- C4 witness: a 404 on an HTTP URL raises `DownloadHTTPError 404`; a bare
OCI name without tag or digest raises `DownloadError`. -/
theorem fetcher_fetch_errors_witness :
    Fetcher._fetch c4Env "http://x".data = ([], some (.downloadHTTP 404)) ∧
    Fetcher._fetch c4Env "f".data = ([], some .downloadError) :=
  ⟨(fetcher_fetch_errors c4Env "http://x".data).2.1 (by decide)
      { status := 404, chunks := [], streamErr := false } (by rfl) (by decide),
   (fetcher_fetch_errors c4Env "f".data).2.2.1 (by decide) (by decide) (by decide)⟩

/-!
## `helpers/cli.py` and `cli/artifact/add.py`

`calculate_blake2b_256` reads the file in 8 kB chunks and feeds them to a
`hashlib.blake2b(digest_size=32)` hasher; the hasher is abstract: a state
type with an `update` fold and a final `hexdigest`. The file system is
abstract too: an existing file is its byte content.
-/

namespace Cli

/-- The 8 kB read size of `calculate_blake2b_256`. -/
def chunk_size_bytes : Nat := 8 * 1024

/-- `iter(lambda: file.read(n), b"")`: the successive `n`-byte chunks of a
byte string. -/
def chunksOf (n : Nat) (l : List Nat) : List (List Nat) :=
  if hl : l = [] then []
  else if hn : n = 0 then []
  else l.take n :: chunksOf n (l.drop n)
termination_by l.length
decreasing_by
  simp only [List.length_drop]
  have : 0 < l.length := List.length_pos.mpr hl
  omega

/-- `calculate_blake2b_256`: fold the hasher's `update` over the 8 kB
chunks of the file content and take the final `hexdigest`. -/
def calculate_blake2b_256 {σ : Type} (init : σ) (update : σ → List Nat → σ)
    (hexdigest : σ → PyStr) (content : List Nat) : PyStr :=
  hexdigest ((chunksOf chunk_size_bytes content).foldl update init)

/-- `ArtifactInfo` from `helpers/cli.py`. -/
structure ArtifactInfo where
  length : Nat
  hashes : List (PyStr × PyStr)
  custom : Option Nat
deriving DecidableEq, Repr

/-- `Artifact` from `helpers/cli.py`. -/
structure Artifact where
  info : ArtifactInfo
  path : PyStr
deriving DecidableEq, Repr

/-- `AddPayload` from `helpers/cli.py` (defaults as in the dataclass). -/
structure AddPayload where
  artifacts : List Artifact
  add_task_id_to_custom : Bool := false
  publish_artifacts : Bool := true
deriving DecidableEq, Repr

/-- `filepath.split("/")[-1]`. -/
def basename (filepath : PyStr) : PyStr :=
  (pySplit '/' filepath).getLastD []

/-- `create_artifact_add_payload_from_filepath`: `content` is the bytes of
the existing file at `filepath` (`os.path.getsize` is its length), `path`
the user-supplied metadata path (`none` = not given). `if path:` is falsy
for both `None` and the empty string. -/
def create_artifact_add_payload_from_filepath {σ : Type} (init : σ)
    (update : σ → List Nat → σ) (hexdigest : σ → PyStr)
    (content : List Nat) (filepath : PyStr) (path : Option PyStr) : AddPayload :=
  let length := content.length
  let blake2b_256_hash := calculate_blake2b_256 init update hexdigest content
  let payload_path :=
    match path with
    | some p => if p ≠ [] then pyRstrip '/' p ++ '/' :: basename filepath
                else basename filepath
    | none => basename filepath
  { artifacts := [{ info := { length := length,
                              hashes := [("blake2b-256".data, blake2b_256_hash)],
                              custom := none },
                    path := payload_path }] }

/-- The dispatch in `cli/artifact/add.py`: an existing local file without
`--oci-image` goes through `create_artifact_add_payload_from_filepath`;
anything else goes to the container path. -/
def add_dispatch {σ : Type} (init : σ) (update : σ → List Nat → σ)
    (hexdigest : σ → PyStr) (oci_image : Bool) (isfile : Bool)
    (content : List Nat) (artifact : PyStr) (path : Option PyStr)
    (ociPayload : AddPayload) : AddPayload :=
  if ¬ oci_image ∧ isfile then
    create_artifact_add_payload_from_filepath init update hexdigest content artifact path
  else ociPayload

/-- The artifact path exactly as claim C5 states it: the basename, prefixed
by the user-supplied path stripped of trailing `'/'` whenever a path is
supplied. -/
def claimPath (filepath : PyStr) (path : Option PyStr) : PyStr :=
  match path with
  | some p => pyRstrip '/' p ++ '/' :: basename filepath
  | none => basename filepath

end Cli

/-- Splitting into chunks loses nothing: their concatenation is the
content. -/
theorem chunksOf_join (n : Nat) (hn : 0 < n) :
    ∀ (k : Nat) (l : List Nat), l.length ≤ k → (Cli.chunksOf n l).flatten = l := by
  intro k
  induction k with
  | zero =>
    intro l hl
    have : l = [] := List.length_eq_zero.mp (Nat.le_zero.mp hl)
    subst this
    simp [Cli.chunksOf]
  | succ k ih =>
    intro l hl
    rw [Cli.chunksOf]
    by_cases hempty : l = []
    · simp [hempty]
    · rw [dif_neg hempty, dif_neg (Nat.pos_iff_ne_zero.mp hn)]
      rw [List.flatten_cons]
      rw [ih (l.drop n) (by simp [List.length_drop]; omega)]
      exact List.take_append_drop n l

/-- Folding list-append over the chunks accumulates exactly the joined
content. -/
theorem foldl_append_eq_join (ls : List (List Nat)) :
    ∀ acc : List Nat, ls.foldl (· ++ ·) acc = acc ++ ls.flatten := by
  induction ls with
  | nil => intro acc; simp
  | cons x rest ih =>
    intro acc
    simp only [List.foldl_cons, List.flatten_cons, ih]
    rw [List.append_assoc]

/-- For the accumulating hasher model, the chunked digest is the digest of
the complete content. -/
theorem calculate_blake2b_256_whole (hexdigest : List Nat → PyStr)
    (content : List Nat) :
    Cli.calculate_blake2b_256 ([] : List Nat) (· ++ ·) hexdigest content =
      hexdigest content := by
  unfold Cli.calculate_blake2b_256
  rw [foldl_append_eq_join, List.nil_append,
      chunksOf_join Cli.chunk_size_bytes (by decide) content.length content (Nat.le_refl _)]

/-- C5 (counterexample). With an empty user-supplied path (`-p ""`) the
Python `if path:` is falsy, so the payload's path is the bare basename,
not the claim's stripped-path prefix joined with `'/'`. -/
theorem create_artifact_payload_path_counterexample :
    (Cli.create_artifact_add_payload_from_filepath ([] : List Nat) (· ++ ·)
        (fun _ => []) [] "f".data (some [])).artifacts.map Cli.Artifact.path
      ≠ [Cli.claimPath "f".data (some [])] := by decide

/-- C5 (amended). For every existing local file submitted with
`artifact add` without `--oci-image`, the request payload holds exactly one
artifact: its `info.length` is the file size in bytes, its hashes map
`"blake2b-256"` to the digest of the complete file content — equal to the
incremental digest over 8 kB chunks for any hasher that accumulates its
input — and its path is the basename, prefixed by the supplied path
stripped of trailing `'/'` when a non-empty path is given; an empty
supplied path behaves like no path at all. -/
theorem artifact_add_local_file_payload (hexdigest : List Nat → PyStr)
    (content : List Nat) (filepath : PyStr) (path : Option PyStr)
    (ociPayload : Cli.AddPayload)
    (hpath : path = none ∨ ∃ p, path = some p ∧ p ≠ []) :
    Cli.add_dispatch ([] : List Nat) (· ++ ·) hexdigest false true content filepath path ociPayload
      = { artifacts := [{ info := { length := content.length,
                                    hashes := [("blake2b-256".data, hexdigest content)],
                                    custom := none },
                          path := Cli.claimPath filepath path }] } := by
  unfold Cli.add_dispatch
  rw [if_pos (by simp : ¬ (false : Bool) ∧ (true : Bool))]
  unfold Cli.create_artifact_add_payload_from_filepath Cli.claimPath
  rw [calculate_blake2b_256_whole]
  rcases hpath with h | ⟨p, hp, hne⟩
  · subst h
    rfl
  · subst hp
    simp [hne]

/-- A concrete hexdigest for the C5 witness. -/
def c5hex : List Nat → PyStr := fun b => if b = [1, 2] then "h".data else []

/-- C5 witness: the amended theorem applied to a two-byte file `"d/f"`
submitted with path `"p/"`. -/
theorem artifact_add_local_file_payload_witness :
    Cli.add_dispatch ([] : List Nat) (· ++ ·) c5hex false true [1, 2] "d/f".data
        (some "p/".data) { artifacts := [] }
      = { artifacts := [{ info := { length := ([1, 2] : List Nat).length,
                                    hashes := [("blake2b-256".data, c5hex [1, 2])],
                                    custom := none },
                          path := Cli.claimPath "d/f".data (some "p/".data) }] } :=
  artifact_add_local_file_payload c5hex [1, 2] "d/f".data (some "p/".data)
    { artifacts := [] } (Or.inr ⟨"p/".data, rfl, by decide⟩)

/-!
## `cli/admin/ceremony.py`

The ceremony command, its helpers `_configure_role`, `_configure_keys`,
`_key_is_duplicated`, `_bootstrap` and `_bootstrap_state`, and the payload
build. Interactive prompts are an oracle indexed by a running prompt
counter; `import_ed25519_privatekey_from_file` (external) is the oracle's
`load_key`; `initialize_metadata` (in `helpers/tuf.py`, not among the
sources) is an opaque oracle field, as the claims only speak about when it
is called and on what. The `SETTINGS.roles` dict is an insertion-ordered
association list.
-/

namespace Ceremony

/-- `RoleSettings` from `ceremony.py`. -/
structure RoleSettings where
  expiration : Nat
  threshold : Nat
  keys : Nat
  offline_keys : Bool

/-- `default_settings` from `ceremony.py`. -/
def default_settings : String → RoleSettings
  | "root" => ⟨365, 1, 2, true⟩
  | "targets" => ⟨365, 1, 2, true⟩
  | "snapshot" => ⟨1, 1, 1, false⟩
  | "timestamp" => ⟨1, 1, 1, false⟩
  | _ => ⟨1, 1, 1, false⟩

/-- The five role names, in the order `Roles` declares them (and so in the
insertion order of the `SETTINGS.roles` dict). -/
def roleNames : List String := ["root", "targets", "snapshot", "timestamp", "bins"]

/-- One entry of a role's `keys` dict. The loaded key dict is opaque
(`Nat`), compared for equality by `_key_is_duplicated`. -/
structure KeyEntry where
  filename : String
  password : String
  key : Option Nat
deriving DecidableEq, Repr

/-- Modelled from the spec: `RolesKeysInput` lives in `helpers/tuf.py`,
which is not among the sources. Its fields are exactly those `ceremony.py`
reads and writes, with empty defaults for the zero-argument
`RolesKeysInput()` construction; `to_dict` is the structure itself. -/
structure RolesKeysInput where
  expiration : Nat := 0
  threshold : Nat := 0
  num_of_keys : Nat := 0
  offline_keys : Bool := false
  number_hash_prefixes : Nat := 0
  keys : List (String × KeyEntry) := []
deriving DecidableEq, Repr

/-- The external world of a ceremony run: prompt answers indexed by a
running prompt counter, the key loader, `initialize_metadata`, and the
server interactions of the `--bootstrap` flag (which touch no ceremony
state: they can only succeed or raise). -/
structure Oracle where
  askInt : Nat → Nat
  askBool : Nat → Bool
  askStr : Nat → String
  load_key : String → String → Except String Nat
  initialize_metadata : List (String × RolesKeysInput) → List (String × Nat)
  preCheck : Except String Unit
  postBootstrap : Except String Unit

/-- The observable steps of a run that the claims speak about. -/
inductive Event
  | configRole (name : String)
  | loadKeys (name : String)
  | confirm (name : String) (ok : Bool)
  | initMeta (roles : List (String × RolesKeysInput))
deriving DecidableEq, Repr

/-- Whether an event is the `initialize_metadata` call. -/
def isInitMeta : Event → Bool
  | .initMeta _ => true
  | _ => false

/-- Reading a role from the `SETTINGS.roles` dict. -/
def getRole (roles : List (String × RolesKeysInput)) (name : String) :
    RolesKeysInput :=
  (roles.lookup name).getD {}

/-- Writing a role back into the `SETTINGS.roles` dict (in-place update of
the Python dict value: the key list is unchanged). -/
def setRole (roles : List (String × RolesKeysInput)) (name : String)
    (r : RolesKeysInput) : List (String × RolesKeysInput) :=
  roles.map (fun p => if p.1 = name then (name, r) else p)

/-- `_key_is_duplicated`: some role already holds an equal key dict. (The
second comparison in the source, against the never-present `"path"` entry,
can never trigger an early `False`.) -/
def _key_is_duplicated (roles : List (String × RolesKeysInput)) (key : Nat) :
    Bool :=
  roles.any (fun p => p.2.keys.any (fun e => e.2.key == some key))

/-- Python `s.endswith("/")`: the last character is `'/'`. -/
def endsWithSlash (s : String) : Bool := s.data.getLastD ' ' == '/'

/-- `_configure_role`: reset the role, ask expiration and number of keys,
ask the threshold only for more than one key, and for `targets` ask the
hash-bin count and the base URL (appending the trailing `'/'`). Returns the
updated role, the updated `SETTINGS.service.targets_base_url` and the
advanced prompt counter. -/
def _configure_role (o : Oracle) (rolename : String) (role : RolesKeysInput)
    (k : Nat) (tbu : String) : RolesKeysInput × String × Nat :=
  let role := { role with keys := [],
                          threshold := (default_settings rolename).threshold,
                          offline_keys := (default_settings rolename).offline_keys }
  let expiration := o.askInt k
  let k := k + 1
  let num := o.askInt k
  let k := k + 1
  let tk : Nat × Nat := if num > 1 then (o.askInt k, k + 1) else (1, k)
  let role := { role with expiration := expiration, num_of_keys := num,
                          threshold := tk.1 }
  let k := tk.2
  if rolename = "targets" then
    let k := k + 1
    let nbins := o.askInt k
    let k := k + 1
    let burl := o.askStr k
    let k := k + 1
    let burl := if endsWithSlash burl then burl else burl ++ "/"
    ({ role with number_hash_prefixes := nbins }, burl, k)
  else (role, tbu, k)

/-- How a run raises `click.ClickException`. -/
inductive Abort
  | clickException (msg : String)
deriving DecidableEq, Repr

/-- `filepath.split("/")[-1]` (via the same `pySplit` model of Python
`split`, on the string's characters). -/
def lastSeg (s : String) : String := ((pySplit '/' s.data).getLastD []).asString

/-- The `while len(role.keys) < role.num_of_keys` loop of
`_configure_keys`, with fuel for the unbounded retries. `none` means the
fuel ran out (the Python loop is still running); the duplicate branch
retries without advancing `key_count`, a failed load asks to try again and
raises when refused. -/
def _configure_keys_loop (o : Oracle) (rolename : String) :
    Nat → List (String × RolesKeysInput) → Nat → Nat →
    Option (Except Abort (List (String × RolesKeysInput) × Nat))
  | fuel, roles, key_count, k =>
    if (getRole roles rolename).keys.length < (getRole roles rolename).num_of_keys then
      match fuel with
      | 0 => none
      | fuel + 1 =>
        let filepath := o.askStr k
        let password := o.askStr (k + 1)
        let k := k + 2
        match o.load_key filepath password with
        | .error _ =>
          let try_again := o.askBool k
          let k := k + 1
          if try_again then _configure_keys_loop o rolename fuel roles key_count k
          else some (.error (.clickException "Required key not validated."))
        | .ok kv =>
          if _key_is_duplicated roles kv then
            _configure_keys_loop o rolename fuel roles key_count k
          else
            let role := getRole roles rolename
            let entry : KeyEntry :=
              { filename := lastSeg filepath, password := password, key := some kv }
            let role := { role with
              keys := role.keys ++ [(rolename ++ "_" ++ toString key_count, entry)] }
            _configure_keys_loop o rolename fuel (setRole roles rolename role)
              (key_count + 1) k
    else some (.ok (roles, k))

/-- STEP 1: `for rolename, role in SETTINGS.roles.items(): _configure_role`.
Returns the updated dict, base URL, counter, and the emitted events. -/
def configurePhase (o : Oracle) :
    List String → List (String × RolesKeysInput) → String → Nat →
    List (String × RolesKeysInput) × String × Nat × List Event
  | [], roles, tbu, k => (roles, tbu, k, [])
  | name :: rest, roles, tbu, k =>
    let r := _configure_role o name (getRole roles name) k tbu
    let roles := setRole roles name r.1
    let step := configurePhase o rest roles r.2.1 r.2.2
    (step.1, step.2.1, step.2.2.1, .configRole name :: step.2.2.2)

/-- STEP 2: `for rolename, role in SETTINGS.roles.items():
_configure_keys`. -/
def keysPhase (o : Oracle) (fuel : Nat) :
    List String → List (String × RolesKeysInput) → Nat →
    Option (Except Abort (List (String × RolesKeysInput) × Nat) × List Event)
  | [], roles, k => some (.ok (roles, k), [])
  | name :: rest, roles, k =>
    match _configure_keys_loop o name fuel roles 1 k with
    | none => none
    | some (.error a) => some (.error a, [.loadKeys name])
    | some (.ok (roles, k)) =>
      match keysPhase o fuel rest roles k with
      | none => none
      | some (res, evs) => some (res, .loadKeys name :: evs)

/-- STEP 3's inner `while True`: show the summary table, ask
`Configuration correct for {rolename}?`, and on a no reconfigure the role
and reload its keys before asking again. -/
def confirmLoop (o : Oracle) (name : String) :
    Nat → List (String × RolesKeysInput) → String → Nat →
    Option (Except Abort (List (String × RolesKeysInput) × String × Nat) × List Event)
  | 0, _, _, _ => none
  | fuel + 1, roles, tbu, k =>
    let ok := o.askBool k
    let k := k + 1
    if ok then some (.ok (roles, tbu, k), [.confirm name true])
    else
      let r := _configure_role o name (getRole roles name) k tbu
      let roles := setRole roles name r.1
      match _configure_keys_loop o name fuel roles 1 r.2.2 with
      | none => none
      | some (.error a) =>
        some (.error a, [.confirm name false, .configRole name, .loadKeys name])
      | some (.ok (roles, k)) =>
        match confirmLoop o name fuel roles r.2.1 k with
        | none => none
        | some (res, evs) =>
          some (res, .confirm name false :: .configRole name :: .loadKeys name :: evs)

/-- STEP 3 over all roles. -/
def confirmPhase (o : Oracle) (fuel : Nat) :
    List String → List (String × RolesKeysInput) → String → Nat →
    Option (Except Abort (List (String × RolesKeysInput) × String × Nat) × List Event)
  | [], roles, tbu, k => some (.ok (roles, tbu, k), [])
  | name :: rest, roles, tbu, k =>
    match confirmLoop o name fuel roles tbu k with
    | none => none
    | some (.error a, evs) => some (.error a, evs)
    | some (.ok (roles, tbu, k), evs) =>
      match confirmPhase o fuel rest roles tbu k with
      | none => none
      | some (res, evs') => some (res, evs ++ evs')

/-- `SETTINGS.roles`: `{role.value: RolesKeysInput() for role in Roles}`. -/
def initialRoles : List (String × RolesKeysInput) :=
  roleNames.map (fun n => (n, {}))

/-- The `if data.offline_keys is True: data.keys.clear()` loop that builds
`json_payload["settings"]["roles"]` role by role. -/
def buildRolesSection :
    List (String × RolesKeysInput) → List (String × RolesKeysInput)
  | [] => []
  | (n, r) :: rest =>
    (n, if r.offline_keys then { r with keys := [] } else r) :: buildRolesSection rest

/-- How a ceremony run ends abnormally: a `click.ClickException`. -/
inductive RunErr
  | aborted (msg : String)
deriving DecidableEq, Repr

/-- What a completed non-upload ceremony run produced: the payload's
pieces, the roles dict at the `initialize_metadata` call, and the event
trace. -/
structure RunResult where
  payload_settings_roles : List (String × RolesKeysInput)
  payload_service : String
  payload_metadata : List (String × Nat)
  final_roles : List (String × RolesKeysInput)
  events : List Event
deriving DecidableEq, Repr

/-- The non-upload path of the `ceremony` command (`upload is False`): the
optional `--bootstrap` server pre-check, the intro prompts, the three
steps, the single `initialize_metadata` call, the payload build (clearing
offline-role keys), and the optional `_bootstrap` POST. `none` = the fuel
ran out inside a prompt loop. -/
def ceremony_run (o : Oracle) (fuel : Nat) (bootstrap : Bool) :
    Option (Except RunErr RunResult) :=
  match (if bootstrap then o.preCheck else .ok ()) with
  | .error m => some (.error (.aborted m))
  | .ok () =>
    let _moreInfo := o.askBool 0
    let start := o.askBool 1
    if start = false then some (.error (.aborted "Ceremony aborted.")) else
    let c := configurePhase o roleNames initialRoles "" 2
    let start2 := o.askBool c.2.2.1
    if start2 = false then some (.error (.aborted "Ceremony aborted.")) else
    match keysPhase o fuel roleNames c.1 (c.2.2.1 + 1) with
    | none => none
    | some (.error (Abort.clickException m), _) => some (.error (.aborted m))
    | some (.ok (roles2, k2), evs2) =>
      match confirmPhase o fuel roleNames roles2 c.2.1 k2 with
      | none => none
      | some (.error (Abort.clickException m), _) => some (.error (.aborted m))
      | some (.ok (roles3, tbu3, _), evs3) =>
        let metadata := o.initialize_metadata roles3
        let result : RunResult :=
          { payload_settings_roles := buildRolesSection roles3,
            payload_service := tbu3,
            payload_metadata := metadata,
            final_roles := roles3,
            events := c.2.2.2 ++ evs2 ++ evs3 ++ [.initMeta roles3] }
        match (if bootstrap then o.postBootstrap else .ok ()) with
        | .error m => some (.error (.aborted m))
        | .ok () => some (.ok result)

end Ceremony

namespace Ceremony

/-- The bootstrap POST response as `_bootstrap` reads it: status code, the
JSON's `message`, its `data` (`none` = absent or falsy; `some t` = a dict
whose `task_id` is `t`), and `response.text`. -/
structure BootstrapResponse where
  status : Nat
  message : Option String
  data : Option (Option String)
  text : String

/-- `_bootstrap` from `ceremony.py`: raise unless the status is 202, raise
unless the message is exactly `"Bootstrap accepted."`, then return the
(possibly missing) task id. -/
def _bootstrap (resp : BootstrapResponse) : Except String (Option String) :=
  if resp.status ≠ 202 then
    .error ("Error " ++ toString resp.status)
  else if resp.message.isNone ∨ resp.message ≠ some "Bootstrap accepted." then
    .error resp.text
  else
    match resp.data with
    | some task_id => .ok task_id
    | none => .ok none

/-- The `details` dict of a task result: its `bootstrap` value (`none` =
absent or a non-boolean). -/
structure TaskDetails where
  bootstrap : Option Bool

/-- A task `result`: its `details` (`none` = absent, so `.get` on `None`
raises `AttributeError`, which the source turns into `False`). -/
structure TaskResult where
  details : Option TaskDetails

/-- A poll's `data`: its `state` string and its `result`. -/
structure TaskData where
  state : Option String
  result : Option TaskResult

/-- One `_bootstrap_state` poll response. `data = none` = absent or falsy. -/
structure PollResponse where
  status : Nat
  data : Option TaskData
  text : String

/-- Python truthiness of the walrus `if state := data.get("state")`. -/
def truthyStr : Option String → Option String
  | some s => if s = "" then none else some s
  | none => none

/-- What one iteration of the `_bootstrap_state` polling loop decides. -/
inductive PollOutcome
  | success
  | failure (msg : String)
  | again
deriving DecidableEq, Repr

/-- One iteration of `_bootstrap_state`: non-200 raises; missing/falsy data
raises; missing/falsy state raises; `SUCCESS` finishes only with
`result.details.bootstrap is True` (an `AttributeError` on the way is
`False`) and raises otherwise; `FAILURE` raises; any other state sleeps and
polls again. -/
def bootstrapStateStep (resp : PollResponse) : PollOutcome :=
  if resp.status ≠ 200 then .failure ("Unexpected response " ++ resp.text)
  else
    match resp.data with
    | none => .failure ("No data received " ++ resp.text)
    | some data =>
      match truthyStr data.state with
      | none => .failure ("No state in data received " ++ resp.text)
      | some state =>
        if state = "SUCCESS" then
          let bootstrap_result :=
            match data.result with
            | none => false
            | some r =>
              match r.details with
              | none => false
              | some d => d.bootstrap == some true
          if bootstrap_result then .success
          else .failure "Something went wrong"
        else if state = "FAILURE" then .failure ("Failed: " ++ resp.text)
        else .again

/-- The `while True` polling loop of `_bootstrap_state` over a stream of
responses, with fuel; `none` = still polling when the fuel ran out. -/
def _bootstrap_state (polls : Nat → PollResponse) :
    Nat → Nat → Option (Except String Unit)
  | 0, _ => none
  | fuel + 1, i =>
    match bootstrapStateStep (polls i) with
    | .success => some (.ok ())
    | .failure m => some (.error m)
    | .again => _bootstrap_state polls fuel (i + 1)

/-- A successful poll as claim C7 describes it: 200, data present, state
`"SUCCESS"`, and `result.details.bootstrap` equal to `True`. -/
def goodPoll (resp : PollResponse) : Prop :=
  resp.status = 200 ∧
  ∃ d, resp.data = some d ∧ truthyStr d.state = some "SUCCESS" ∧
    ∃ r dd, d.result = some r ∧ r.details = some dd ∧ dd.bootstrap = some true

/-- A poll that claim C7 says must raise: non-200, missing data, missing
state, state `FAILURE`, or `SUCCESS` without `bootstrap` `True`. -/
def badPoll (resp : PollResponse) : Prop :=
  resp.status ≠ 200 ∨ resp.data = none ∨
  ∃ d, resp.data = some d ∧
    (truthyStr d.state = none ∨ truthyStr d.state = some "FAILURE" ∨
      (truthyStr d.state = some "SUCCESS" ∧
        ¬ ∃ r dd, d.result = some r ∧ r.details = some dd ∧ dd.bootstrap = some true))

end Ceremony

/-- C6. `_bootstrap` returns (a possibly-`None` task id) exactly when the
POST was answered with status 202 and message `"Bootstrap accepted."`; any
other response raises a `ClickException` and returns nothing. -/
theorem bootstrap_accepts_iff (resp : Ceremony.BootstrapResponse) :
    (∃ t, Ceremony._bootstrap resp = .ok t) ↔
      (resp.status = 202 ∧ resp.message = some "Bootstrap accepted.") := by
  unfold Ceremony._bootstrap
  constructor
  · intro ⟨t, ht⟩
    by_cases h202 : resp.status = 202
    · rw [if_neg (by simp [h202])] at ht
      by_cases hmsg : resp.message = some "Bootstrap accepted."
      · exact ⟨h202, hmsg⟩
      · rw [if_pos (Or.inr hmsg)] at ht
        cases ht
    · rw [if_pos h202] at ht
      cases ht
  · intro ⟨h202, hmsg⟩
    rw [if_neg (by simp [h202]), if_neg (by simp [hmsg])]
    cases hdata : resp.data with
    | some task_id => exact ⟨task_id, rfl⟩
    | none => exact ⟨none, rfl⟩

/-- C6 witness: an accepted response yields a task id; a 500 yields none. -/
theorem bootstrap_accepts_iff_witness :
    (∃ t, Ceremony._bootstrap
        { status := 202, message := some "Bootstrap accepted.",
          data := some (some "tid"), text := "" } = .ok t) ∧
    ¬ ∃ t, Ceremony._bootstrap
        { status := 500, message := some "Bootstrap accepted.",
          data := none, text := "err" } = .ok t :=
  ⟨(bootstrap_accepts_iff _).mpr ⟨rfl, rfl⟩,
   fun h => by
     have := (bootstrap_accepts_iff _).mp h
     simp at this⟩

/-- A `success` outcome can only come from a 200 response with state
`SUCCESS` and `result.details.bootstrap` equal to `True`. -/
theorem good_of_step_success (resp : Ceremony.PollResponse)
    (h : Ceremony.bootstrapStateStep resp = .success) : Ceremony.goodPoll resp := by
  unfold Ceremony.bootstrapStateStep at h
  by_cases h200 : resp.status = 200
  · rw [if_neg (by simp [h200])] at h
    cases hdata : resp.data with
    | none => rw [hdata] at h; cases h
    | some d =>
      simp only [hdata] at h
      cases hstate : Ceremony.truthyStr d.state with
      | none => simp only [hstate] at h; cases h
      | some st =>
        simp only [hstate] at h
        by_cases hsucc : st = "SUCCESS"
        · rw [if_pos hsucc] at h
          subst hsucc
          refine ⟨h200, d, hdata, hstate, ?_⟩
          revert h
          cases hres : d.result with
          | none => intro h; simp at h
          | some r =>
            cases hdet : r.details with
            | none => intro h; simp [hdet] at h
            | some dd =>
              intro h
              by_cases hb : dd.bootstrap = some true
              · exact ⟨r, dd, rfl, hdet, hb⟩
              · simp only [hdet, beq_iff_eq] at h
                rw [if_neg hb] at h
                cases h
        · rw [if_neg hsucc] at h
          by_cases hfail : st = "FAILURE"
          · rw [if_pos hfail] at h; cases h
          · rw [if_neg hfail] at h; cases h
  · rw [if_pos (by simp [h200])] at h
    cases h

/-- C7. First conjunct: the polling loop of `_bootstrap_state` terminates
normally only if some poll response is a 200 whose state is `"SUCCESS"`
with `result.details.bootstrap` equal to `True`. Second conjunct: every
poll response with a non-200 status, missing data, missing state, state
`"FAILURE"`, or state `"SUCCESS"` without `bootstrap` `True` raises a
`ClickException`. -/
theorem bootstrap_state_terminates_only_on_success :
    (∀ (polls : Nat → Ceremony.PollResponse) (fuel i : Nat),
        Ceremony._bootstrap_state polls fuel i = some (.ok ()) →
        ∃ j, i ≤ j ∧ Ceremony.goodPoll (polls j)) ∧
    (∀ resp, Ceremony.badPoll resp →
        ∃ m, Ceremony.bootstrapStateStep resp = .failure m) := by
  constructor
  · intro polls fuel
    induction fuel with
    | zero => intro i h; cases h
    | succ fuel ih =>
      intro i h
      unfold Ceremony._bootstrap_state at h
      cases hstep : Ceremony.bootstrapStateStep (polls i) with
      | success => exact ⟨i, Nat.le_refl _, good_of_step_success _ hstep⟩
      | failure m => rw [hstep] at h; cases h
      | again =>
        rw [hstep] at h
        obtain ⟨j, hij, hg⟩ := ih (i + 1) h
        exact ⟨j, Nat.le_trans (Nat.le_succ i) hij, hg⟩
  · intro resp hbad
    unfold Ceremony.bootstrapStateStep
    by_cases h200 : resp.status = 200
    · rw [if_neg (by simp [h200])]
      rcases hbad with hst | hdata | ⟨d, hd, hcase⟩
      · exact absurd h200 hst
      · simp only [hdata]
        exact ⟨_, rfl⟩
      · simp only [hd]
        rcases hcase with hs | hs | ⟨hs, hnb⟩
        · simp only [hs]
          exact ⟨_, rfl⟩
        · simp only [hs]
          exact ⟨"Failed: " ++ resp.text, by simp⟩
        · simp only [hs]
          rw [if_pos trivial]
          have hfalse : (match d.result with
              | none => false
              | some r =>
                match r.details with
                | none => false
                | some dd => dd.bootstrap == some true) = false := by
            cases hr : d.result with
            | none => rfl
            | some r =>
              cases hdet : r.details with
              | none => simp [hdet]
              | some dd =>
                by_cases hb : dd.bootstrap = some true
                · exact absurd ⟨r, dd, hr, hdet, hb⟩ hnb
                · simp [hdet, hb]
          rw [hfalse]
          exact ⟨"Something went wrong", by simp⟩
    · rw [if_pos (by simp [h200])]
      exact ⟨_, rfl⟩

/-- The C7 witness's succeeding poll. -/
def c7goodResp : Ceremony.PollResponse :=
  { status := 200,
    data := some { state := some "SUCCESS",
                   result := some { details := some { bootstrap := some true } } },
    text := "" }

/-- The C7 witness's failing poll. -/
def c7badResp : Ceremony.PollResponse :=
  { status := 500, data := none, text := "boom" }

/-- C7 witness: the theorem applied to a constant stream of successful
polls and to a concrete 500 response. -/
theorem bootstrap_state_terminates_only_on_success_witness :
    (∃ j, 0 ≤ j ∧ Ceremony.goodPoll ((fun _ => c7goodResp) j)) ∧
    (∃ m, Ceremony.bootstrapStateStep c7badResp = .failure m) :=
  ⟨bootstrap_state_terminates_only_on_success.1 (fun _ => c7goodResp) 1 0 (by rfl),
   bootstrap_state_terminates_only_on_success.2 c7badResp (Or.inl (by decide))⟩

namespace Ceremony

/-- Updating a role in place keeps the dict's key list. -/
theorem setRole_names (roles : List (String × RolesKeysInput)) (name : String)
    (r : RolesKeysInput) :
    (setRole roles name r).map Prod.fst = roles.map Prod.fst := by
  induction roles with
  | nil => rfl
  | cons p rest ih =>
    simp only [setRole, List.map_cons] at *
    by_cases h : p.1 = name
    · simp only [if_pos h, ih]
      rw [h]
    · simp only [if_neg h, ih]

/-- A key present in the dict is found by `lookup`, and the found value is
an entry of the dict. -/
theorem lookup_of_mem_fst (roles : List (String × RolesKeysInput)) (name : String)
    (hmem : ∃ q ∈ roles, q.1 = name) :
    ∃ v, roles.lookup name = some v ∧ (name, v) ∈ roles := by
  induction roles with
  | nil => simp at hmem
  | cons p rest ih =>
    by_cases h : p.1 = name
    · refine ⟨p.2, ?_, ?_⟩
      · simp [List.lookup, h.symm]
      · rw [← h]
        exact List.mem_cons_self _ _
    · obtain ⟨q, hq, hqn⟩ := hmem
      rcases List.mem_cons.mp hq with rfl | hq'
      · exact absurd hqn h
      · obtain ⟨v, hv, hvm⟩ := ih ⟨q, hq', hqn⟩
        refine ⟨v, ?_, List.mem_cons_of_mem _ hvm⟩
        have : (name == p.1) = false := by
          simp
          intro he
          exact h he.symm
        simp [List.lookup, this, hv]

/-- `_configure_role` always sets the role's `offline_keys` to the default
for that role name. -/
theorem configure_role_offline (o : Oracle) (rolename : String)
    (role : RolesKeysInput) (k : Nat) (tbu : String) :
    (_configure_role o rolename role k tbu).1.offline_keys =
      (default_settings rolename).offline_keys := by
  unfold _configure_role
  by_cases h : rolename = "targets" <;> simp [h]

/-- STEP 1 emits exactly one `configRole` event per role, in order. -/
theorem configurePhase_events (o : Oracle) :
    ∀ (names : List String) (roles : List (String × RolesKeysInput))
      (tbu : String) (k : Nat),
      (configurePhase o names roles tbu k).2.2.2 = names.map Event.configRole := by
  intro names
  induction names with
  | nil => intro roles tbu k; rfl
  | cons n rest ih =>
    intro roles tbu k
    simp only [configurePhase, List.map_cons]
    rw [ih]

/-- STEP 1 keeps the dict's key list. -/
theorem configurePhase_names (o : Oracle) :
    ∀ (names : List String) (roles : List (String × RolesKeysInput))
      (tbu : String) (k : Nat),
      (configurePhase o names roles tbu k).1.map Prod.fst = roles.map Prod.fst := by
  intro names
  induction names with
  | nil => intro roles tbu k; rfl
  | cons n rest ih =>
    intro roles tbu k
    simp only [configurePhase]
    rw [ih, setRole_names]

/-- After STEP 1 every role whose name was not left to configure carries
the default `offline_keys` flag. -/
theorem configurePhase_offline (o : Oracle) :
    ∀ (names : List String) (roles : List (String × RolesKeysInput))
      (tbu : String) (k : Nat),
      (∀ p ∈ roles, p.1 ∉ names →
        p.2.offline_keys = (default_settings p.1).offline_keys) →
      ∀ p ∈ (configurePhase o names roles tbu k).1,
        p.2.offline_keys = (default_settings p.1).offline_keys := by
  intro names
  induction names with
  | nil =>
    intro roles tbu k hroles p hp
    exact hroles p hp (by simp)
  | cons n rest ih =>
    intro roles tbu k hroles p hp
    simp only [configurePhase] at hp
    refine ih _ _ _ ?_ p hp
    intro q hq hqrest
    rcases List.mem_map.mp hq with ⟨q0, hq0, hq0eq⟩
    by_cases hqn : q0.1 = n
    · rw [if_pos hqn] at hq0eq
      rw [← hq0eq]
      exact configure_role_offline o n _ _ _
    · rw [if_neg hqn] at hq0eq
      subst hq0eq
      refine hroles q0 hq0 ?_
      intro hmem
      rcases List.mem_cons.mp hmem with h | h
      · exact hqn h
      · exact hqrest h

end Ceremony

namespace Ceremony

/-- A successful `lookup` finds an entry of the dict. -/
theorem lookup_mem (name : String) :
    ∀ (roles : List (String × RolesKeysInput)) (v : RolesKeysInput),
      roles.lookup name = some v → (name, v) ∈ roles := by
  intro roles
  induction roles with
  | nil => intro v h; simp [List.lookup] at h
  | cons p rest ih =>
    intro v h
    by_cases hb : name = p.1
    · simp [List.lookup, hb] at h
      rw [hb, ← h]
      exact List.mem_cons_self _ _
    · have : (name == p.1) = false := by simp [hb]
      simp [List.lookup, this] at h
      exact List.mem_cons_of_mem _ (ih v h)

/-- Writing back a role that keeps the default `offline_keys` for its name
preserves the all-defaults invariant. -/
theorem offline_setRole_default (roles : List (String × RolesKeysInput))
    (name : String) (r : RolesKeysInput)
    (hr : r.offline_keys = (default_settings name).offline_keys)
    (hP : ∀ p ∈ roles, p.2.offline_keys = (default_settings p.1).offline_keys) :
    ∀ p ∈ setRole roles name r,
      p.2.offline_keys = (default_settings p.1).offline_keys := by
  intro p hp
  rcases List.mem_map.mp hp with ⟨q, hq, hqe⟩
  by_cases hqn : q.1 = name
  · rw [if_pos hqn] at hqe
    subst hqe
    exact hr
  · rw [if_neg hqn] at hqe
    subst hqe
    exact hP q hq

/-- The `_configure_keys` loop, when it finishes normally, keeps the
dict's key list and the all-defaults `offline_keys` invariant (it only
appends to the keys of the configured role). -/
theorem keys_loop_ok_spec (o : Oracle) (rolename : String) :
    ∀ (fuel : Nat) (roles : List (String × RolesKeysInput)) (kc k : Nat)
      (roles' : List (String × RolesKeysInput)) (k' : Nat),
      _configure_keys_loop o rolename fuel roles kc k = some (.ok (roles', k')) →
      roles'.map Prod.fst = roles.map Prod.fst ∧
      ((∀ p ∈ roles, p.2.offline_keys = (default_settings p.1).offline_keys) →
        ∀ p ∈ roles', p.2.offline_keys = (default_settings p.1).offline_keys) := by
  intro fuel
  induction fuel with
  | zero =>
    intro roles kc k roles' k' h
    unfold _configure_keys_loop at h
    split at h
    · cases h
    · simp at h
      obtain ⟨h1, _⟩ := h
      subst h1
      exact ⟨rfl, fun hP => hP⟩
  | succ fuel ih =>
    intro roles kc k roles' k' h
    unfold _configure_keys_loop at h
    split at h
    · rename_i hguard
      cases hload : o.load_key (o.askStr k) (o.askStr (k + 1)) with
      | error e =>
        simp only [hload] at h
        split at h
        · exact ih _ _ _ _ _ h
        · cases h
      | ok kv =>
        simp only [hload] at h
        split at h
        · exact ih _ _ _ _ _ h
        · obtain ⟨hnames, hoff⟩ := ih _ _ _ _ _ h
          rw [setRole_names] at hnames
          refine ⟨hnames, fun hP => hoff ?_⟩
          -- the written role keeps the stored role's offline flag
          cases hlk : roles.lookup rolename with
          | none =>
            -- then getRole is the default record: its num_of_keys is 0,
            -- contradicting the loop guard
            exfalso
            have : getRole roles rolename = {} := by simp [getRole, hlk]
            rw [this] at hguard
            simp at hguard
          | some v =>
            have hgr : getRole roles rolename = v := by simp [getRole, hlk]
            refine offline_setRole_default _ _ _ ?_ hP
            rw [hgr]
            exact hP (rolename, v) (lookup_mem rolename roles v hlk)
    · simp at h
      obtain ⟨h1, _⟩ := h
      subst h1
      exact ⟨rfl, fun hP => hP⟩

/-- STEP 2 over a list of names: the events are one `loadKeys` per name in
order, the dict's key list is kept, and the all-defaults `offline_keys`
invariant is preserved. -/
theorem keysPhase_ok_spec (o : Oracle) (fuel : Nat) :
    ∀ (names : List String) (roles : List (String × RolesKeysInput)) (k : Nat)
      (roles' : List (String × RolesKeysInput)) (k' : Nat) (evs : List Event),
      keysPhase o fuel names roles k = some (.ok (roles', k'), evs) →
      evs = names.map Event.loadKeys ∧
      roles'.map Prod.fst = roles.map Prod.fst ∧
      ((∀ p ∈ roles, p.2.offline_keys = (default_settings p.1).offline_keys) →
        ∀ p ∈ roles', p.2.offline_keys = (default_settings p.1).offline_keys) := by
  intro names
  induction names with
  | nil =>
    intro roles k roles' k' evs h
    simp only [keysPhase] at h
    simp at h
    obtain ⟨⟨h1, _⟩, h3⟩ := h
    subst h1
    subst h3
    exact ⟨rfl, rfl, fun hP => hP⟩
  | cons n rest ih =>
    intro roles k roles' k' evs h
    simp only [keysPhase] at h
    cases hloop : _configure_keys_loop o n fuel roles 1 k with
    | none => rw [hloop] at h; cases h
    | some res =>
      rw [hloop] at h
      cases res with
      | error a => simp at h
      | ok rk =>
        obtain ⟨roles1, k1⟩ := rk
        cases hrest : keysPhase o fuel rest roles1 k1 with
        | none => simp [hrest] at h
        | some resevs =>
          obtain ⟨res', evs'⟩ := resevs
          simp only [hrest] at h
          simp at h
          obtain ⟨hres', hevs⟩ := h
          subst hres'
          obtain ⟨hev', hnm', hoff'⟩ := ih roles1 k1 roles' k' evs' hrest
          obtain ⟨hnm, hoff⟩ := keys_loop_ok_spec o n fuel roles 1 k roles1 k1 hloop
          refine ⟨?_, ?_, ?_⟩
          · rw [← hevs, hev']
            rfl
          · rw [hnm', hnm]
          · intro hP
            exact hoff' (hoff hP)

end Ceremony

namespace Ceremony

/-- STEP 3's per-role loop, when the operator eventually confirms: the
events it emits are never the `initialize_metadata` call, the dict's key
list is kept, and the all-defaults `offline_keys` invariant is preserved
(a reconfiguration resets the flag to its default again). -/
theorem confirmLoop_ok_spec (o : Oracle) (name : String) :
    ∀ (fuel : Nat) (roles : List (String × RolesKeysInput)) (tbu : String)
      (k : Nat) (roles' : List (String × RolesKeysInput)) (tbu' : String)
      (k' : Nat) (evs : List Event),
      confirmLoop o name fuel roles tbu k = some (.ok (roles', tbu', k'), evs) →
      (∀ e ∈ evs, isInitMeta e = false) ∧
      roles'.map Prod.fst = roles.map Prod.fst ∧
      ((∀ p ∈ roles, p.2.offline_keys = (default_settings p.1).offline_keys) →
        ∀ p ∈ roles', p.2.offline_keys = (default_settings p.1).offline_keys) := by
  intro fuel
  induction fuel with
  | zero =>
    intro roles tbu k roles' tbu' k' evs h
    cases h
  | succ fuel ih =>
    intro roles tbu k roles' tbu' k' evs h
    unfold confirmLoop at h
    simp only [] at h
    split at h
    · simp at h
      obtain ⟨⟨h1, h2, h3⟩, h4⟩ := h
      subst h1
      subst h4
      refine ⟨?_, rfl, fun hP => hP⟩
      intro e he
      simp at he
      subst he
      rfl
    · cases hloop : _configure_keys_loop o name fuel
          (setRole roles name (_configure_role o name (getRole roles name) (k + 1) tbu).1) 1
          (_configure_role o name (getRole roles name) (k + 1) tbu).2.2 with
      | none =>
        simp only [hloop] at h
        cases h
      | some res0 =>
        simp only [hloop] at h
        cases res0 with
        | error a => simp at h
        | ok rk =>
          obtain ⟨roles1, k1⟩ := rk
          cases hrec : confirmLoop o name fuel roles1
              (_configure_role o name (getRole roles name) (k + 1) tbu).2.1 k1 with
          | none =>
            simp only [hrec] at h
            cases h
          | some resEvs =>
            obtain ⟨res', evs'⟩ := resEvs
            simp only [hrec] at h
            simp at h
            obtain ⟨hres', hevs⟩ := h
            rw [hres'] at hrec
            obtain ⟨hnoinit', hnames', hoff'⟩ := ih _ _ _ _ _ _ _ hrec
            obtain ⟨hnamesL, hoffL⟩ := keys_loop_ok_spec o name fuel _ 1 _ _ _ hloop
            rw [setRole_names] at hnamesL
            refine ⟨?_, by rw [hnames', hnamesL], ?_⟩
            · intro e he
              rw [← hevs] at he
              rcases List.mem_cons.mp he with rfl | he
              · rfl
              · rcases List.mem_cons.mp he with rfl | he
                · rfl
                · rcases List.mem_cons.mp he with rfl | he
                  · rfl
                  · exact hnoinit' e he
            · intro hP
              refine hoff' (hoffL ?_)
              exact offline_setRole_default _ _ _ (configure_role_offline o name _ _ _) hP

/-- STEP 3 over all roles: no `initialize_metadata` event is emitted, the
dict's key list is kept, and the all-defaults `offline_keys` invariant is
preserved. -/
theorem confirmPhase_ok_spec (o : Oracle) (fuel : Nat) :
    ∀ (names : List String) (roles : List (String × RolesKeysInput))
      (tbu : String) (k : Nat) (roles' : List (String × RolesKeysInput))
      (tbu' : String) (k' : Nat) (evs : List Event),
      confirmPhase o fuel names roles tbu k = some (.ok (roles', tbu', k'), evs) →
      (∀ e ∈ evs, isInitMeta e = false) ∧
      roles'.map Prod.fst = roles.map Prod.fst ∧
      ((∀ p ∈ roles, p.2.offline_keys = (default_settings p.1).offline_keys) →
        ∀ p ∈ roles', p.2.offline_keys = (default_settings p.1).offline_keys) := by
  intro names
  induction names with
  | nil =>
    intro roles tbu k roles' tbu' k' evs h
    simp only [confirmPhase] at h
    simp at h
    obtain ⟨⟨h1, h2, h3⟩, h4⟩ := h
    subst h1
    subst h4
    exact ⟨by simp, rfl, fun hP => hP⟩
  | cons n rest ih =>
    intro roles tbu k roles' tbu' k' evs h
    simp only [confirmPhase] at h
    cases hloop : confirmLoop o n fuel roles tbu k with
    | none => rw [hloop] at h; cases h
    | some resEvs =>
      rw [hloop] at h
      obtain ⟨res0, evs0⟩ := resEvs
      cases res0 with
      | error a => simp at h
      | ok rtk =>
        obtain ⟨roles1, tbu1, k1⟩ := rtk
        cases hrest : confirmPhase o fuel rest roles1 tbu1 k1 with
        | none => simp [hrest] at h
        | some resEvs' =>
          obtain ⟨res', evs'⟩ := resEvs'
          simp only [hrest] at h
          simp at h
          obtain ⟨hres', hevs⟩ := h
          subst hres'
          obtain ⟨hni0, hnm0, hoff0⟩ := confirmLoop_ok_spec o n fuel _ _ _ _ _ _ _ hloop
          obtain ⟨hni', hnm', hoff'⟩ := ih _ _ _ _ _ _ _ hrest
          refine ⟨?_, by rw [hnm', hnm0], fun hP => hoff' (hoff0 hP)⟩
          intro e he
          rw [← hevs] at he
          rcases List.mem_append.mp he with he | he
          · exact hni0 e he
          · exact hni' e he

end Ceremony

namespace Ceremony

/-- Decomposing a completed non-upload run into its three phases and the
final payload build. -/
theorem ceremony_run_ok_inversion (o : Oracle) (fuel : Nat) (bootstrap : Bool)
    (res : RunResult) (h : ceremony_run o fuel bootstrap = some (.ok res)) :
    ∃ roles2 k2 evs2 roles3 tbu3 k3 evs3,
      keysPhase o fuel roleNames (configurePhase o roleNames initialRoles "" 2).1
          ((configurePhase o roleNames initialRoles "" 2).2.2.1 + 1)
        = some (.ok (roles2, k2), evs2) ∧
      confirmPhase o fuel roleNames roles2
          (configurePhase o roleNames initialRoles "" 2).2.1 k2
        = some (.ok (roles3, tbu3, k3), evs3) ∧
      res = { payload_settings_roles := buildRolesSection roles3,
              payload_service := tbu3,
              payload_metadata := o.initialize_metadata roles3,
              final_roles := roles3,
              events := (configurePhase o roleNames initialRoles "" 2).2.2.2
                          ++ evs2 ++ evs3 ++ [.initMeta roles3] } := by
  unfold ceremony_run at h
  cases hpre : (if bootstrap then o.preCheck else Except.ok ()) with
  | error m =>
    rw [hpre] at h
    cases h
  | ok u =>
    cases u
    rw [hpre] at h
    simp only [] at h
    split at h
    · cases h
    · split at h
      · cases h
      · cases hkeys : keysPhase o fuel roleNames
            (configurePhase o roleNames initialRoles "" 2).1
            ((configurePhase o roleNames initialRoles "" 2).2.2.1 + 1) with
        | none =>
          simp only [hkeys] at h
          cases h
        | some resEvs2 =>
          simp only [hkeys] at h
          obtain ⟨res2, evs2⟩ := resEvs2
          cases res2 with
          | error a =>
            cases a
            simp at h
          | ok rk2 =>
            obtain ⟨roles2, k2⟩ := rk2
            cases hconf : confirmPhase o fuel roleNames roles2
                (configurePhase o roleNames initialRoles "" 2).2.1 k2 with
            | none =>
              simp only [hconf] at h
              cases h
            | some resEvs3 =>
              simp only [hconf] at h
              obtain ⟨res3, evs3⟩ := resEvs3
              cases res3 with
              | error a =>
                cases a
                simp at h
              | ok rtk3 =>
                obtain ⟨roles3, tbu3, k3⟩ := rtk3
                cases hpost : (if bootstrap then o.postBootstrap else Except.ok ()) with
                | error m =>
                  simp only [hpost] at h
                  cases h
                | ok u2 =>
                  cases u2
                  simp only [hpost] at h
                  have h2 := Option.some.inj h
                  have h3 := Except.ok.inj h2
                  exact ⟨roles2, k2, evs2, roles3, tbu3, k3, evs3, rfl, hconf, h3.symm⟩

/-- `buildRolesSection` keeps the dict's key list. -/
theorem buildRolesSection_names :
    ∀ roles : List (String × RolesKeysInput),
      (buildRolesSection roles).map Prod.fst = roles.map Prod.fst := by
  intro roles
  induction roles with
  | nil => rfl
  | cons p rest ih =>
    obtain ⟨n, r⟩ := p
    simp only [buildRolesSection, List.map_cons, ih]

/-- Every payload-roles entry comes from a roles entry of the same name,
with its keys cleared exactly when its `offline_keys` flag is set. -/
theorem buildRolesSection_mem :
    ∀ (roles : List (String × RolesKeysInput)) (p : String × RolesKeysInput),
      p ∈ buildRolesSection roles →
      ∃ q ∈ roles, p.1 = q.1 ∧
        p.2 = (if q.2.offline_keys then { q.2 with keys := [] } else q.2) := by
  intro roles
  induction roles with
  | nil => intro p hp; simp [buildRolesSection] at hp
  | cons q rest ih =>
    intro p hp
    obtain ⟨n, r⟩ := q
    simp only [buildRolesSection] at hp
    rcases List.mem_cons.mp hp with rfl | hp
    · exact ⟨(n, r), List.mem_cons_self _ _, rfl, rfl⟩
    · obtain ⟨q', hq', h1, h2⟩ := ih p hp
      exact ⟨q', List.mem_cons_of_mem _ hq', h1, h2⟩

/-- For the five ceremony roles the default `offline_keys` flag is set
exactly for `root` and `targets`. -/
theorem default_offline_iff (n : String) (hn : n ∈ roleNames) :
    (default_settings n).offline_keys = decide (n = "root" ∨ n = "targets") := by
  simp only [roleNames, List.mem_cons, List.mem_singleton, List.not_mem_nil, or_false] at hn
  rcases hn with rfl | rfl | rfl | rfl | rfl
  · rfl
  · rfl
  · rfl
  · rfl
  · rfl

end Ceremony

/-- A list of events none of which is the metadata call filters to
nothing. -/
theorem filter_isInit_nil (evs : List Ceremony.Event)
    (h : ∀ e ∈ evs, Ceremony.isInitMeta e = false) :
    evs.filter Ceremony.isInitMeta = [] := by
  induction evs with
  | nil => rfl
  | cons e rest ih =>
    have he := h e (List.mem_cons_self _ _)
    simp [List.filter_cons, he,
      ih (fun e' he' => h e' (List.mem_cons_of_mem _ he'))]

/-- `configRole` events are not the metadata call. -/
theorem filter_map_configRole (names : List String) :
    (names.map Ceremony.Event.configRole).filter Ceremony.isInitMeta = [] :=
  filter_isInit_nil _ (by
    intro e he
    rcases List.mem_map.mp he with ⟨n, _, rfl⟩
    rfl)

/-- `loadKeys` events are not the metadata call. -/
theorem filter_map_loadKeys (names : List String) :
    (names.map Ceremony.Event.loadKeys).filter Ceremony.isInitMeta = [] :=
  filter_isInit_nil _ (by
    intro e he
    rcases List.mem_map.mp he with ⟨n, _, rfl⟩
    rfl)

/-- C3. Every completed non-upload ceremony run fills the one fixed
structure whose roles dict has exactly the five keys `root`, `targets`,
`snapshot`, `timestamp`, `bins`, and proceeds sequentially: the trace
starts with one configuration step per role in order, then one key-loading
step per role in order, then the per-role confirmation steps (which never
call the metadata initializer), and finally exactly one
`initialize_metadata` call on that roles dict, whose result is the
payload's metadata section. -/
theorem ceremony_sequential_flow (o : Ceremony.Oracle) (fuel : Nat)
    (bootstrap : Bool) (res : Ceremony.RunResult)
    (h : Ceremony.ceremony_run o fuel bootstrap = some (.ok res)) :
    res.final_roles.map Prod.fst = Ceremony.roleNames ∧
    (∃ rest, res.events =
        Ceremony.roleNames.map Ceremony.Event.configRole ++
          Ceremony.roleNames.map Ceremony.Event.loadKeys ++
          rest ++ [Ceremony.Event.initMeta res.final_roles] ∧
        ∀ e ∈ rest, Ceremony.isInitMeta e = false) ∧
    res.events.filter Ceremony.isInitMeta = [Ceremony.Event.initMeta res.final_roles] ∧
    res.payload_metadata = o.initialize_metadata res.final_roles := by
  obtain ⟨roles2, k2, evs2, roles3, tbu3, k3, evs3, hkeys, hconf, hres⟩ :=
    Ceremony.ceremony_run_ok_inversion o fuel bootstrap res h
  obtain ⟨hev2, hnm2, hoff2⟩ := Ceremony.keysPhase_ok_spec o fuel _ _ _ _ _ _ hkeys
  obtain ⟨hni3, hnm3, hoff3⟩ := Ceremony.confirmPhase_ok_spec o fuel _ _ _ _ _ _ _ _ hconf
  subst hres
  have hnames : roles3.map Prod.fst = Ceremony.roleNames := by
    rw [hnm3, hnm2, Ceremony.configurePhase_names]
    rfl
  refine ⟨hnames, ⟨evs3, ?_, hni3⟩, ?_, rfl⟩
  · show (Ceremony.configurePhase o Ceremony.roleNames Ceremony.initialRoles "" 2).2.2.2
        ++ evs2 ++ evs3 ++ [Ceremony.Event.initMeta roles3] = _
    rw [Ceremony.configurePhase_events, hev2]
  · show ((Ceremony.configurePhase o Ceremony.roleNames Ceremony.initialRoles "" 2).2.2.2
        ++ evs2 ++ evs3 ++ [Ceremony.Event.initMeta roles3]).filter Ceremony.isInitMeta = _
    rw [List.filter_append, List.filter_append, List.filter_append,
        Ceremony.configurePhase_events, filter_map_configRole,
        hev2, filter_map_loadKeys, filter_isInit_nil evs3 hni3]
    rfl

/-- C8. In the payload of every completed non-upload ceremony run, the
roles section is the roles dict with the keys of every `offline_keys` role
cleared: the five role names are all present, `offline_keys` is set exactly
for `root` and `targets`, every offline role's keys dict is empty in the
payload (the loaded key material and passwords are removed), and every
online role's entry is exactly its configured entry, keys untouched. -/
theorem ceremony_offline_keys_cleared (o : Ceremony.Oracle) (fuel : Nat)
    (bootstrap : Bool) (res : Ceremony.RunResult)
    (h : Ceremony.ceremony_run o fuel bootstrap = some (.ok res)) :
    res.payload_settings_roles = Ceremony.buildRolesSection res.final_roles ∧
    res.payload_settings_roles.map Prod.fst = Ceremony.roleNames ∧
    (∀ p ∈ res.final_roles,
        p.2.offline_keys = decide (p.1 = "root" ∨ p.1 = "targets")) ∧
    (∀ p ∈ res.payload_settings_roles,
        (p.2.offline_keys = true → p.2.keys = []) ∧
        (p.2.offline_keys = false → p ∈ res.final_roles)) := by
  obtain ⟨roles2, k2, evs2, roles3, tbu3, k3, evs3, hkeys, hconf, hres⟩ :=
    Ceremony.ceremony_run_ok_inversion o fuel bootstrap res h
  obtain ⟨_, hnm2, hoff2⟩ := Ceremony.keysPhase_ok_spec o fuel _ _ _ _ _ _ hkeys
  obtain ⟨_, hnm3, hoff3⟩ := Ceremony.confirmPhase_ok_spec o fuel _ _ _ _ _ _ _ _ hconf
  subst hres
  have hP1 : ∀ p ∈ (Ceremony.configurePhase o Ceremony.roleNames Ceremony.initialRoles "" 2).1,
      p.2.offline_keys = (Ceremony.default_settings p.1).offline_keys := by
    apply Ceremony.configurePhase_offline
    intro p hp hnot
    exact absurd (by rcases List.mem_map.mp hp with ⟨n, hn, rfl⟩; exact hn) hnot
  have hP3 : ∀ p ∈ roles3,
      p.2.offline_keys = (Ceremony.default_settings p.1).offline_keys :=
    hoff3 (hoff2 hP1)
  have hnames : roles3.map Prod.fst = Ceremony.roleNames := by
    rw [hnm3, hnm2, Ceremony.configurePhase_names]
    rfl
  refine ⟨rfl, ?_, ?_, ?_⟩
  · show (Ceremony.buildRolesSection roles3).map Prod.fst = _
    rw [Ceremony.buildRolesSection_names, hnames]
  · intro p hp
    rw [hP3 p hp]
    apply Ceremony.default_offline_iff
    have hm : p.1 ∈ roles3.map Prod.fst := List.mem_map_of_mem Prod.fst hp
    rw [hnames] at hm
    exact hm
  · intro p hp
    obtain ⟨q, hq, hfst, hsnd⟩ := Ceremony.buildRolesSection_mem roles3 p hp
    by_cases hoff : q.2.offline_keys
    · rw [if_pos hoff] at hsnd
      constructor
      · intro _
        rw [hsnd]
      · intro hfalse
        rw [hsnd] at hfalse
        simp at hfalse
        rw [hfalse] at hoff
        cases hoff
    · rw [if_neg hoff] at hsnd
      constructor
      · intro htrue
        rw [hsnd] at htrue
        exact absurd htrue hoff
      · intro _
        have hpq : p = q := Prod.ext_iff.mpr ⟨hfst, hsnd⟩
        rw [hpq]
        exact hq

/-- An oracle that confirms every prompt, asks for one key per role, and
loads a distinct key for each distinct prompt index. -/
def happyOracle : Ceremony.Oracle where
  askInt := fun _ => 1
  askBool := fun _ => true
  askStr := fun i => (List.replicate i 'a').asString
  load_key := fun f _ => .ok f.length
  initialize_metadata := fun roles => roles.map (fun p => (p.1, p.2.keys.length))
  preCheck := .ok ()
  postBootstrap := .ok ()

/-- The run result `ceremony_run` computes against `happyOracle`. -/
def happyResult : Ceremony.RunResult :=
  match Ceremony.ceremony_run happyOracle 10 false with
  | some (.ok r) => r
  | _ => { payload_settings_roles := [], payload_service := "",
           payload_metadata := [], final_roles := [], events := [] }

/-- C3 witness: the theorem applied to the completed `happyOracle` run. -/
theorem ceremony_sequential_flow_witness :
    happyResult.final_roles.map Prod.fst = Ceremony.roleNames ∧
    (∃ rest, happyResult.events =
        Ceremony.roleNames.map Ceremony.Event.configRole ++
          Ceremony.roleNames.map Ceremony.Event.loadKeys ++
          rest ++ [Ceremony.Event.initMeta happyResult.final_roles] ∧
        ∀ e ∈ rest, Ceremony.isInitMeta e = false) ∧
    happyResult.events.filter Ceremony.isInitMeta
      = [Ceremony.Event.initMeta happyResult.final_roles] ∧
    happyResult.payload_metadata
      = happyOracle.initialize_metadata happyResult.final_roles :=
  ceremony_sequential_flow happyOracle 10 false happyResult (by decide)

/-- C8 witness: the theorem applied to the completed `happyOracle` run. -/
theorem ceremony_offline_keys_cleared_witness :
    happyResult.payload_settings_roles
      = Ceremony.buildRolesSection happyResult.final_roles ∧
    happyResult.payload_settings_roles.map Prod.fst = Ceremony.roleNames ∧
    (∀ p ∈ happyResult.final_roles,
        p.2.offline_keys = decide (p.1 = "root" ∨ p.1 = "targets")) ∧
    (∀ p ∈ happyResult.payload_settings_roles,
        (p.2.offline_keys = true → p.2.keys = []) ∧
        (p.2.offline_keys = false → p ∈ happyResult.final_roles)) :=
  ceremony_offline_keys_cleared happyOracle 10 false happyResult (by decide)

/-!
## `cli/admin/new.py`

The live statements of the `new` command: the server/dry-run guard, the
`--out` dump, and the `_configure_delegations()` assignment. Everything
between them is commented out in the source.
-/

namespace NewCmd

/-- How the `metadata new` command ends. -/
inductive NewErr
  | clickException (msg : String)
  | nameError
deriving DecidableEq, Repr

/-- The `new` command. `server` is `settings.get("SERVER")`, `out` the
`--out` option (its file is opened — truncated — by `click.File("w")`
before the command body runs), `configure_delegations` the external
`_configure_delegations`. Returns the outcome and the strings written to
the output file. In the source, `delegations` is assigned only on line
120, after the `json.dump` on line 117 reads it, so when `--out` is given
the dump's argument evaluation raises `NameError` (`UnboundLocalError`)
before anything is written. -/
def new_run (server : Option String) (out : Option String) (dry_run : Bool)
    (configure_delegations : Unit → Nat) :
    Except NewErr (Option Nat) × List String :=
  if server = none ∧ ¬ dry_run then
    (.error (.clickException
      "Either '--api-sever' admin option/'SERVER' in RSTUF config or '--dry-run' needed"), [])
  else
    match out with
    | some _ =>
      -- json.dump({"delegations": delegations.to_dict()}, out, indent=2):
      -- `delegations` is a local that has not been assigned yet
      (.error .nameError, [])
    | none =>
      let delegations := configure_delegations ()
      (.ok (some delegations), [])

end NewCmd

/-- C9. Whenever `--out` is provided and the command gets past the
server/dry-run guard, `new` terminates with an error (the `NameError` from
reading the not-yet-assigned `delegations`) and the output file receives no
delegations JSON. -/
theorem new_out_unbound_delegations (server : Option String) (out_file : String)
    (dry_run : Bool) (cfg : Unit → Nat)
    (hready : server ≠ none ∨ dry_run = true) :
    NewCmd.new_run server (some out_file) dry_run cfg
      = (.error .nameError, []) := by
  unfold NewCmd.new_run
  rw [if_neg ?hguard]
  case hguard =>
    rintro ⟨h1, h2⟩
    rcases hready with h | h
    · exact h h1
    · exact h2 h

/-- C9 witness: a configured server and `--out new-targets.json`. -/
theorem new_out_unbound_delegations_witness :
    NewCmd.new_run (some "http://api") (some "new-targets.json") false (fun _ => 0)
      = (.error .nameError, []) :=
  new_out_unbound_delegations (some "http://api") "new-targets.json" false (fun _ => 0)
    (Or.inl (by simp))
